import Mathlib

/-
Verification of the OceanDataSync ingestion-and-normalization engine.

This file gives a shallow embedding of the core logic of
src/ocean_sync/processor.py and src/ocean_sync/scrapper.py and proves the
behavioural claims about it.  Conventions of the embedding:

* pandas cell values are modelled as Option Rat: none is NaN/None, some q is a
  numeric value (floating point is idealized as exact rationals);
* a pandas DataFrame is a column-name list plus a row-major list of cells;
* exceptions that a function catches and turns into an empty result are
  modelled by Option/empty results;
* wall-clock inputs (datetime.now, pd.Timestamp.now) and the seeded numpy
  random stream are explicit parameters.
-/

namespace OceanSync

/-! Character and string helpers (Python str.lower, substring test, Path.stem,
format padding).  Strings are handled at the character-list level so that all
operations reduce by computation. -/

/-- ASCII lowercase of one character, as Python str.lower acts on ASCII. -/
def lowerChar (c : Char) : Char :=
  if 'A' ≤ c ∧ c ≤ 'Z' then Char.ofNat (c.toNat + 32) else c

/-- Python filename.lower(), at the character-list level. -/
def lowerStr (s : String) : List Char := s.toList.map lowerChar

/-- needle occurs at the start of hay. -/
def isPrefixB : List Char → List Char → Bool
  | [], _ => true
  | _ :: _, [] => false
  | a :: as, b :: bs => a == b && isPrefixB as bs

/-- The Python substring test: needle in hay. -/
def containsSub (needle : List Char) : List Char → Bool
  | [] => isPrefixB needle []
  | h :: t => isPrefixB needle (h :: t) || containsSub needle t

/-- Index of the last occurrence of a character in a list, if any. -/
def ridxOf (c : Char) : List Char → Option Nat
  | [] => none
  | a :: as =>
    match ridxOf c as with
    | some i => some (i + 1)
    | none => if a = c then some 0 else none

/-- pathlib Path.stem: the final extension is removed when the last dot is
neither the first nor the last character of the name. -/
def stemOf (s : String) : String :=
  let cs := s.toList
  match ridxOf '.' cs with
  | some i => if 0 < i ∧ i + 1 < cs.length then String.mk (cs.take i) else s
  | none => s

/-- Python format i:03d: decimal, left zero-padded to width 3. -/
def pad3 (i : Nat) : String :=
  if i < 10 then "00" ++ toString i
  else if i < 100 then "0" ++ toString i
  else toString i

/-! The chunked writer, DataProcessor._save_chunked (processor.py lines
261-295).  numpy.array_split(df, k) returns len % k sections of size
len // k + 1 followed by k - len % k sections of size len // k.  Output files
are modelled as (filename, row list) pairs; the per-source output directory is
an opaque path prefix and is omitted from the modelled filename. -/

/-- Section sizes of numpy.array_split: n % k sections of n / k + 1 elements,
then k - n % k sections of n / k elements. -/
def splitSizes (n k : Nat) : List Nat :=
  List.replicate (n % k) (n / k + 1) ++ List.replicate (k - n % k) (n / k)

/-- Cut successive segments of the given sizes off the front of a list. -/
def splitBySizes {α : Type} : List α → List Nat → List (List α)
  | _, [] => []
  | l, s :: rest => l.take s :: splitBySizes (l.drop s) rest

/-- numpy.array_split of a list into k sections. -/
def arraySplit {α : Type} (l : List α) (k : Nat) : List (List α) :=
  splitBySizes l (splitSizes l.length k)

/-- Filename of the single-file branch of _save_chunked (line 273). -/
def singleName (pfx st : String) : String := pfx ++ "_" ++ st ++ "_processed.csv"

/-- Filename of chunk i in the multi-file branch of _save_chunked (line 288). -/
def partName (pfx st : String) (i : Nat) : String :=
  pfx ++ "_" ++ st ++ "_processed_part" ++ pad3 i ++ ".csv"

/-- DataProcessor._save_chunked: nothing for an empty record set, a single
_processed file when the row count is within the bound, otherwise
ceil(n / bound) numpy.array_split chunks with 1-indexed _processed_partNNN
names. -/
def saveChunked {α : Type} (pfx st : String) (maxRows : Nat) (rows : List α) :
    List (String × List α) :=
  if rows.length = 0 then []
  else if rows.length ≤ maxRows then [(singleName pfx st, rows)]
  else
    let numChunks := (rows.length + maxRows - 1) / maxRows
    (arraySplit rows numChunks).enum.map (fun ic => (partName pfx st (ic.1 + 1), ic.2))

/-! Lemmas about the chunked writer. -/

theorem splitBySizes_length {α : Type} (l : List α) (sizes : List Nat) :
    (splitBySizes l sizes).length = sizes.length := by
  induction sizes generalizing l with
  | nil => rfl
  | cons s rest ih => simp [splitBySizes, ih]

theorem splitBySizes_flatten {α : Type} (l : List α) (sizes : List Nat) :
    (splitBySizes l sizes).flatten = l.take sizes.sum := by
  induction sizes generalizing l with
  | nil => simp [splitBySizes]
  | cons s rest ih =>
    simp only [splitBySizes, List.flatten_cons, ih, List.sum_cons, List.take_add]

theorem splitBySizes_chunk_le {α : Type} (l : List α) (sizes : List Nat) :
    ∀ c ∈ splitBySizes l sizes, ∃ s ∈ sizes, c.length ≤ s := by
  induction sizes generalizing l with
  | nil => simp [splitBySizes]
  | cons s rest ih =>
    intro c hc
    rcases List.mem_cons.mp hc with h | h
    · exact ⟨s, List.mem_cons_self _ _, h ▸ List.length_take_le _ _⟩
    · obtain ⟨s', hs', hle⟩ := ih (l.drop s) c h
      exact ⟨s', List.mem_cons_of_mem _ hs', hle⟩

theorem splitSizes_length (n k : Nat) (hk : 0 < k) : (splitSizes n k).length = k := by
  have h : n % k < k := Nat.mod_lt _ hk
  simp [splitSizes]
  omega

theorem repl_sum (k q r : Nat) (h : r ≤ k) :
    (List.replicate r (q + 1) ++ List.replicate (k - r) q).sum = k * q + r := by
  obtain ⟨t, rfl⟩ := Nat.le.dest h
  simp only [List.sum_append, List.sum_replicate, smul_eq_mul, Nat.add_sub_cancel_left]
  ring

theorem splitSizes_sum (n k : Nat) (hk : 0 < k) : (splitSizes n k).sum = n := by
  rw [splitSizes, repl_sum k (n / k) (n % k) (Nat.mod_lt _ hk).le, Nat.div_add_mod]

theorem splitSizes_le (n k b : Nat) (hk : 0 < k) (hnk : n ≤ k * b) :
    ∀ s ∈ splitSizes n k, s ≤ b := by
  intro s hs
  have h1 := Nat.div_add_mod n k
  rcases List.mem_append.mp hs with h | h
  · obtain ⟨hr0, rfl⟩ := List.mem_replicate.mp h
    have h2 : 0 < n % k := Nat.pos_of_ne_zero hr0
    have h3 : k * (n / k) < n :=
      calc k * (n / k) < k * (n / k) + n % k := Nat.lt_add_of_pos_right h2
        _ = n := h1
    exact Nat.succ_le_of_lt (Nat.lt_of_mul_lt_mul_left (lt_of_lt_of_le h3 hnk))
  · obtain ⟨-, rfl⟩ := List.mem_replicate.mp h
    have hle : k * (n / k) ≤ k * b :=
      calc k * (n / k) = n / k * k := Nat.mul_comm _ _
        _ ≤ n := Nat.div_mul_le_self n k
        _ ≤ k * b := hnk
    exact Nat.le_of_mul_le_mul_left hle hk

theorem ceil_chunks_pos (n b : Nat) (hb : 0 < b) (hn : 0 < n) :
    0 < (n + b - 1) / b :=
  (Nat.one_le_div_iff hb).mpr (by omega)

theorem ceil_chunks_mul (n b : Nat) (hb : 0 < b) : n ≤ (n + b - 1) / b * b := by
  obtain ⟨b', rfl⟩ : ∃ b', b = b' + 1 := ⟨b - 1, by omega⟩
  have he : n + (b' + 1) - 1 = n + b' := by omega
  have h1 := Nat.div_add_mod (n + b') (b' + 1)
  have h2 : (n + b') % (b' + 1) < b' + 1 := Nat.mod_lt _ hb
  rw [he, Nat.mul_comm]
  linarith

theorem saveChunked_snd {α : Type} (pfx st : String) (b : Nat) (rows : List α)
    (h0 : rows.length ≠ 0) (h1 : ¬ rows.length ≤ b) :
    (saveChunked pfx st b rows).map Prod.snd
      = arraySplit rows ((rows.length + b - 1) / b) := by
  simp only [saveChunked, if_neg h0, if_neg h1, List.map_map]
  have : (Prod.snd ∘ fun ic : Nat × List α => (partName pfx st (ic.1 + 1), ic.2))
      = Prod.snd := rfl
  rw [this, List.enum_map_snd]

theorem enum_map_comp {α β : Type} (L : List α) (g : Nat → β) :
    L.enum.map (fun ic => g ic.1) = (List.range L.length).map g := by
  rw [← List.enum_map_fst L, List.map_map]
  rfl

theorem arraySplit_length {α : Type} (l : List α) (k : Nat) (hk : 0 < k) :
    (arraySplit l k).length = k := by
  rw [arraySplit, splitBySizes_length, splitSizes_length _ _ hk]

/-- Claim C1: for every record set of n rows and bound b > 0, _save_chunked
produces 0 files when n = 0, 1 file when 0 < n ≤ b, and ceil(n/b) files
(written (n + b - 1) / b as in the source) when n > b; every file holds at
most b rows, and the files concatenated in part order are exactly the
original rows in order. -/
theorem chunked_writer_correct {α : Type} (pfx st : String) (b : Nat) (hb : 0 < b)
    (rows : List α) :
    (rows.length = 0 → saveChunked pfx st b rows = [])
    ∧ (0 < rows.length → rows.length ≤ b → (saveChunked pfx st b rows).length = 1)
    ∧ (b < rows.length →
        (saveChunked pfx st b rows).length = (rows.length + b - 1) / b)
    ∧ (∀ f ∈ saveChunked pfx st b rows, f.2.length ≤ b)
    ∧ ((saveChunked pfx st b rows).map Prod.snd).flatten = rows := by
  by_cases h0 : rows.length = 0
  · refine ⟨fun _ => by simp [saveChunked, h0], fun h _ => absurd h0 (by omega), ?_, ?_, ?_⟩
    · intro hgt
      omega
    · intro f hf
      simp [saveChunked, h0] at hf
    · have : rows = [] := List.length_eq_zero.mp h0
      simp [saveChunked, h0, this]
  · by_cases h1 : rows.length ≤ b
    · refine ⟨fun h => absurd h h0, fun _ _ => by simp [saveChunked, h0, h1], ?_, ?_, ?_⟩
      · intro hgt
        omega
      · intro f hf
        simp only [saveChunked, if_neg h0, if_pos h1] at hf
        simp only [List.mem_singleton] at hf
        subst hf
        exact h1
      · simp [saveChunked, h0, h1]
    · have hb' : b < rows.length := by omega
      have hkpos : 0 < (rows.length + b - 1) / b := ceil_chunks_pos _ _ hb (by omega)
      have hkmul : rows.length ≤ (rows.length + b - 1) / b * b := ceil_chunks_mul _ _ hb
      have hsnd := saveChunked_snd pfx st b rows h0 h1
      refine ⟨fun h => absurd h h0, fun _ h => absurd h h1, ?_, ?_, ?_⟩
      · intro _
        simp only [saveChunked, if_neg h0, if_neg h1, List.length_map, List.enum_length]
        exact arraySplit_length _ _ hkpos
      · intro f hf
        have hmem : f.2 ∈ (saveChunked pfx st b rows).map Prod.snd :=
          List.mem_map_of_mem _ hf
        rw [hsnd] at hmem
        obtain ⟨s, hs, hle⟩ := splitBySizes_chunk_le _ _ _ hmem
        exact le_trans hle (splitSizes_le rows.length _ b hkpos hkmul s hs)
      · rw [hsnd, arraySplit, splitBySizes_flatten,
          splitSizes_sum _ _ hkpos, List.take_length]

/-- Witness for C1 at b = 2 and five rows. -/
theorem chunked_writer_correct_witness :
    0 < 2 ∧ ((saveChunked "noaa" "f" 2 [10, 20, 30, 40, 50]).map Prod.snd).flatten
      = [10, 20, 30, 40, 50] :=
  ⟨by decide, (chunked_writer_correct "noaa" "f" 2 (by decide) [10, 20, 30, 40, 50]).2.2.2.2⟩

/-- Claim C8: _save_chunked is a pure function of (rows, stem, source prefix,
bound): equal inputs give equal partitions and filenames, with no clock or
randomness input; the single-file name carries the _processed suffix and the
multi-file names carry 1-indexed _processed_partNNN suffixes zero-padded to
three digits (Python i:03d). -/
theorem chunked_writer_deterministic {α : Type} (pfx st : String) (b : Nat)
    (rows : List α) :
    (∀ (pfx' st' : String) (b' : Nat) (rows' : List α),
        pfx = pfx' → st = st' → b = b' → rows = rows' →
        saveChunked pfx st b rows = saveChunked pfx' st' b' rows')
    ∧ (rows.length ≠ 0 → rows.length ≤ b →
        (saveChunked pfx st b rows).map Prod.fst
          = [pfx ++ "_" ++ st ++ "_processed.csv"])
    ∧ (0 < b → b < rows.length →
        (saveChunked pfx st b rows).map Prod.fst
          = (List.range ((rows.length + b - 1) / b)).map
              (fun i => pfx ++ "_" ++ st ++ "_processed_part" ++ pad3 (i + 1) ++ ".csv")) := by
  refine ⟨?_, ?_, ?_⟩
  · intro pfx' st' b' rows' h1 h2 h3 h4
    rw [h1, h2, h3, h4]
  · intro h0 h1
    simp [saveChunked, h0, h1, singleName]
  · intro hb hgt
    have h0 : ¬ rows.length = 0 := by omega
    have h1 : ¬ rows.length ≤ b := by omega
    have hkpos : 0 < (rows.length + b - 1) / b :=
      ceil_chunks_pos _ _ hb (by omega)
    simp only [saveChunked, if_neg h0, if_neg h1, List.map_map]
    have hcomp : (Prod.fst ∘ fun ic : Nat × List α =>
        (partName pfx st (ic.1 + 1), ic.2)) = fun ic => partName pfx st (ic.1 + 1) := rfl
    rw [hcomp,
      enum_map_comp (arraySplit rows ((rows.length + b - 1) / b))
        (fun i => partName pfx st (i + 1)),
      arraySplit_length _ _ hkpos]
    rfl

/-- Witness for C8: three rows with bound 2 give two part files with padded
1-indexed names. -/
theorem chunked_writer_deterministic_witness :
    2 < 3 ∧ (saveChunked "a" "f" 2 [1, 2, 3]).map Prod.fst
      = (List.range ((3 + 2 - 1) / 2)).map
          (fun i => "a" ++ "_" ++ "f" ++ "_processed_part" ++ pad3 (i + 1) ++ ".csv") :=
  ⟨by decide, (chunked_writer_deterministic "a" "f" 2 [1, 2, 3]).2.2 (by decide) (by decide)⟩

/-! The dataframe model for the two CSV sources.  A cell is none (NaN/None) or
a rational; a dataframe is a list of column names and row-major cells.  Rows
are accessed positionally: cell j of a row corresponds to column j. -/

/-- One pandas cell. -/
abbrev Cell := Option ℚ

/-- A parsed CSV dataframe. -/
structure Df where
  cols : List String
  rows : List (List Cell)
deriving DecidableEq

/-- Rectangularity, as produced by pd.read_csv. -/
def Df.WF (d : Df) : Prop := ∀ r ∈ d.rows, r.length = d.cols.length

/-- required_cols, processor.py lines 93 and 149. -/
def canonCols : List String :=
  ["timestamp", "latitude", "longitude", "sea_surface_temperature"]

/-- NOAA column-rename heuristic, processor.py lines 78-88: lowercase substring
match, first rule wins, unmatched names stay. -/
def noaaRename (c : String) : String :=
  let l := lowerStr c
  if containsSub ("time".toList) l then "timestamp"
  else if containsSub ("lat".toList) l then "latitude"
  else if containsSub ("lon".toList) l then "longitude"
  else if containsSub ("sst".toList) l || containsSub ("analysed".toList) l then
    "sea_surface_temperature"
  else c

/-- Column names after df.rename (line 90). -/
def noaaRenamed (df : Df) : List String := df.cols.map noaaRename

/-- available_cols (line 94): canonical names present, in canonical order. -/
def noaaAvail (df : Df) : List String :=
  canonCols.filter (fun c => (noaaRenamed df).contains c)

/-- df[cols]: select the named columns, in order, from rows indexed by
allCols.  Missing names yield null cells (never hit on the modelled paths). -/
def selectCols (cols allCols : List String) (rows : List (List Cell)) : Df :=
  ⟨cols, rows.map (fun r => cols.map (fun c => r.getD (allCols.indexOf c) none))⟩

/-- result = df[available_cols] (line 99). -/
def noaaSel (df : Df) : Df := selectCols (noaaAvail df) (noaaRenamed df) df.rows

/-- Non-null values of column i, as pandas aggregations skip NaN. -/
def colVals (d : Df) (i : Nat) : List ℚ := d.rows.filterMap (fun r => r.getD i none)

/-- Arithmetic mean; division by zero in Rat gives 0, matching the fact that a
NaN mean of an empty column never satisfies the > 200 test. -/
def meanQ (xs : List ℚ) : ℚ := xs.sum / xs.length

/-- Series.mean() of the sea_surface_temperature column. -/
def sstMean (d : Df) : ℚ := meanQ (colVals d (d.cols.indexOf "sea_surface_temperature"))

/-- 273.15. -/
def kelvinOffset : ℚ := 27315 / 100

/-- Subtract v from the cell at column index i of one row; null stays null
(NaN - v = NaN). -/
def subAt (r : List Cell) (i : Nat) (v : ℚ) : List Cell :=
  r.enum.map (fun jc => if jc.1 = i then jc.2.map (fun q => q - v) else jc.2)

/-- NOAA Kelvin correction, lines 102-106: when the column is present and its
mean exceeds 200, subtract 273.15 everywhere and rename the column to
sst_celsius (the source subtracts then renames; the combined record is the
same). -/
def noaaCorrected (d : Df) : Df :=
  if "sea_surface_temperature" ∈ d.cols ∧ sstMean d > 200 then
    ⟨d.cols.map (fun c => if c = "sea_surface_temperature" then "sst_celsius" else c),
     d.rows.map (fun r => subAt r (d.cols.indexOf "sea_surface_temperature") kelvinOffset)⟩
  else d

/-- dropna(subset=[latitude, longitude]) (lines 109, 164): keep rows whose
latitude and longitude cells are non-null. -/
def dropNullCoords (d : Df) : Df :=
  ⟨d.cols, d.rows.filter (fun r =>
    (r.getD (d.cols.indexOf "latitude") none).isSome
    && (r.getD (d.cols.indexOf "longitude") none).isSome)⟩

/-- The NOAA mapping, process_noaa_file lines 75-109.  none models the raised
ValueError when no canonical column is recoverable (line 97) and the KeyError
of dropna when latitude or longitude is absent; both are caught at line 121
and lead to an empty file list. -/
def noaaTransform (df : Df) : Option Df :=
  if noaaAvail df = [] then none
  else
    let c := noaaCorrected (noaaSel df)
    if "latitude" ∈ c.cols ∧ "longitude" ∈ c.cols then
      some (dropNullCoords c)
    else none

/-- process_noaa_file: transform then _save_chunked; [] on a caught error. -/
def processNoaaFile (df : Df) (maxRows : Nat) (st : String) :
    List (String × List (List Cell)) :=
  match noaaTransform df with
  | none => []
  | some out => saveChunked "noaa" st maxRows out.rows

/-- Copernicus column-rename heuristic, lines 134-144: time/date synonyms for
timestamp and sst/temp/analysed synonyms for the temperature column. -/
def copRename (c : String) : String :=
  let l := lowerStr c
  if containsSub ("time".toList) l || containsSub ("date".toList) l then "timestamp"
  else if containsSub ("lat".toList) l then "latitude"
  else if containsSub ("lon".toList) l then "longitude"
  else if containsSub ("sst".toList) l || containsSub ("temp".toList) l
      || containsSub ("analysed".toList) l then "sea_surface_temperature"
  else c

def copRenamed (df : Df) : List String := df.cols.map copRename

/-- Canonical columns absent after renaming (line 153). -/
def copMissing (df : Df) : List String :=
  canonCols.filter (fun c => !(copRenamed df).contains c)

/-- df[col] = None for each absent canonical column appends an all-null column
(lines 152-154). -/
def copPadded (df : Df) : Df :=
  ⟨copRenamed df ++ copMissing df,
   df.rows.map (fun r => r ++ List.replicate (copMissing df).length none)⟩

/-- result = df[required_cols] (line 156). -/
def copSel (df : Df) : Df :=
  selectCols canonCols (copPadded df).cols (copPadded df).rows

/-- Copernicus Kelvin correction, lines 159-161: subtract 273.15 when the mean
exceeds 200; the column is NOT renamed. -/
def copCorrected (d : Df) : Df :=
  if "sea_surface_temperature" ∈ d.cols ∧ sstMean d > 200 then
    ⟨d.cols,
     d.rows.map (fun r => subAt r (d.cols.indexOf "sea_surface_temperature") kelvinOffset)⟩
  else d

/-- The Copernicus mapping, process_copernicus_file lines 131-164. -/
def copTransform (df : Df) : Df := dropNullCoords (copCorrected (copSel df))

/-- process_copernicus_file: transform then _save_chunked. -/
def processCopFile (df : Df) (maxRows : Nat) (st : String) :
    List (String × List (List Cell)) :=
  saveChunked "copernicus" st maxRows (copTransform df).rows

/-! pandas.to_numeric(errors=coerce) on string tokens: strip whitespace, then
accept an optionally signed decimal with an optional fraction part and an
optional integer exponent; anything else coerces to null.  (Special tokens
such as inf/nan, underscores and hex are outside the modelled domain.) -/

/-- Strip leading and trailing whitespace. -/
def trimList (cs : List Char) : List Char :=
  ((cs.dropWhile Char.isWhitespace).reverse.dropWhile Char.isWhitespace).reverse

/-- Numeric value of a digit character. -/
def digitVal (c : Char) : Nat := c.toNat - '0'.toNat

/-- Value of a digit string read left to right. -/
def digitsVal (cs : List Char) : Nat := cs.foldl (fun a c => 10 * a + digitVal c) 0

/-- Unsigned decimal mantissa: digits with at most one point, at least one
digit overall; returns the value and the unconsumed suffix. -/
def parseMantissa (cs : List Char) : Option (ℚ × List Char) :=
  let ip := cs.takeWhile Char.isDigit
  let r1 := cs.dropWhile Char.isDigit
  match r1 with
  | '.' :: r2 =>
    let fp := r2.takeWhile Char.isDigit
    let r3 := r2.dropWhile Char.isDigit
    if ip.length = 0 ∧ fp.length = 0 then none
    else some ((digitsVal ip : ℚ) + (digitsVal fp : ℚ) / (10 : ℚ) ^ fp.length, r3)
  | _ => if ip.length = 0 then none else some ((digitsVal ip : ℚ), r1)

/-- Optionally signed exponent digits, which must end the token. -/
def parseExpTail (cs : List Char) : Option (Bool × Nat) :=
  let core : List Char → Option Nat := fun ds =>
    if ds.length ≠ 0 ∧ ds.all Char.isDigit then some (digitsVal ds) else none
  match cs with
  | '-' :: r => (core r).map (fun e => (true, e))
  | '+' :: r => (core r).map (fun e => (false, e))
  | _ => (core cs).map (fun e => (false, e))

/-- pandas.to_numeric(errors=coerce) on one token (character-list form). -/
def toNumericL (cs0 : List Char) : Option ℚ :=
  let cs := trimList cs0
  let signed : Bool × List Char :=
    match cs with
    | '-' :: r => (true, r)
    | '+' :: r => (false, r)
    | _ => (false, cs)
  match parseMantissa signed.2 with
  | none => none
  | some (m, rest) =>
    let finish : ℚ → Option ℚ := fun v => some (if signed.1 then -v else v)
    match rest with
    | [] => finish m
    | 'e' :: r =>
      match parseExpTail r with
      | some (eneg, e) => finish (if eneg then m / (10 : ℚ) ^ e else m * (10 : ℚ) ^ e)
      | none => none
    | 'E' :: r =>
      match parseExpTail r with
      | some (eneg, e) => finish (if eneg then m / (10 : ℚ) ^ e else m * (10 : ℚ) ^ e)
      | none => none
    | _ => none

/-- pandas.to_numeric(errors=coerce) on one string. -/
def toNumeric (s : String) : Option ℚ := toNumericL s.toList

/-! Calendar timestamps and pd.to_datetime(format=%Y%m%d%H%M%S,
errors=coerce).  The format is matched with the stdlib strptime regular
expressions (%Y is exactly four digits; month, day, hour, minute, second each
match ordered two-digit-first alternatives and may fall back to one digit),
anchored at the start; a match leaving unconverted characters, an invalid
calendar combination, or an instant outside the pandas nanosecond Timestamp
range coerces to null. -/

/-- A second-resolution timestamp. -/
structure DT where
  y : Nat
  mo : Nat
  d : Nat
  h : Nat
  mi : Nat
  s : Nat
deriving DecidableEq

/-- Gregorian leap year. -/
def isLeap (y : Nat) : Bool :=
  y % 4 = 0 && (y % 100 != 0 || y % 400 = 0)

def daysInMonth (y m : Nat) : Nat :=
  if m = 2 then (if isLeap y then 29 else 28)
  else if m = 4 || m = 6 || m = 9 || m = 11 then 30
  else 31

/-- The field ranges datetime.datetime accepts (year 1-9999, real day of
month, 24h clock). -/
def validCalendar (t : DT) : Prop :=
  1 ≤ t.y ∧ t.y ≤ 9999 ∧ 1 ≤ t.mo ∧ t.mo ≤ 12 ∧ 1 ≤ t.d ∧ t.d ≤ daysInMonth t.y t.mo
  ∧ t.h ≤ 23 ∧ t.mi ≤ 59 ∧ t.s ≤ 59

instance (t : DT) : Decidable (validCalendar t) := by
  unfold validCalendar
  infer_instance

/-- Mixed-radix key ordering timestamps chronologically on valid fields. -/
def dtKey (t : DT) : Nat :=
  ((((t.y * 13 + t.mo) * 32 + t.d) * 24 + t.h) * 60 + t.mi) * 60 + t.s

/-- Smallest second-resolution instant representable as a pandas nanosecond
Timestamp (Timestamp.min is 1677-09-21 00:12:43.145224193). -/
def pandasMin : DT := ⟨1677, 9, 21, 0, 12, 44⟩

/-- Largest such instant (Timestamp.max is 2262-04-11 23:47:16.854775807). -/
def pandasMax : DT := ⟨2262, 4, 11, 23, 47, 16⟩

def inPandasBounds (t : DT) : Prop :=
  dtKey pandasMin ≤ dtKey t ∧ dtKey t ≤ dtKey pandasMax

instance (t : DT) : Decidable (inPandasBounds t) := by
  unfold inPandasBounds
  infer_instance

/-- %Y: exactly four digits. -/
def matchY : List Char → Option (Nat × List Char)
  | a :: b :: c :: d :: rest =>
    if a.isDigit ∧ b.isDigit ∧ c.isDigit ∧ d.isDigit then
      some (1000 * digitVal a + 100 * digitVal b + 10 * digitVal c + digitVal d, rest)
    else none
  | _ => none

/-- %m candidates in regex alternative order: 1[0-2], 0[1-9], [1-9]. -/
def candsM : List Char → List (Nat × List Char)
  | a :: b :: rest =>
    (if a = '1' ∧ b.isDigit ∧ digitVal b ≤ 2 then [(10 + digitVal b, rest)] else [])
    ++ (if a = '0' ∧ b.isDigit ∧ 1 ≤ digitVal b then [(digitVal b, rest)] else [])
    ++ (if a.isDigit ∧ 1 ≤ digitVal a then [(digitVal a, b :: rest)] else [])
  | [a] => if a.isDigit ∧ 1 ≤ digitVal a then [(digitVal a, [])] else []
  | [] => []

/-- %d candidates: 3[01], [12]\d, 0[1-9], [1-9]. -/
def candsD : List Char → List (Nat × List Char)
  | a :: b :: rest =>
    (if a = '3' ∧ (b = '0' ∨ b = '1') then [(30 + digitVal b, rest)] else [])
    ++ (if (a = '1' ∨ a = '2') ∧ b.isDigit then [(10 * digitVal a + digitVal b, rest)] else [])
    ++ (if a = '0' ∧ b.isDigit ∧ 1 ≤ digitVal b then [(digitVal b, rest)] else [])
    ++ (if a.isDigit ∧ 1 ≤ digitVal a then [(digitVal a, b :: rest)] else [])
  | [a] => if a.isDigit ∧ 1 ≤ digitVal a then [(digitVal a, [])] else []
  | [] => []

/-- %H candidates: 2[0-3], [0-1]\d, \d. -/
def candsH : List Char → List (Nat × List Char)
  | a :: b :: rest =>
    (if a = '2' ∧ b.isDigit ∧ digitVal b ≤ 3 then [(20 + digitVal b, rest)] else [])
    ++ (if (a = '0' ∨ a = '1') ∧ b.isDigit then [(10 * digitVal a + digitVal b, rest)] else [])
    ++ (if a.isDigit then [(digitVal a, b :: rest)] else [])
  | [a] => if a.isDigit then [(digitVal a, [])] else []
  | [] => []

/-- %M and %S candidates: [0-5]\d, \d.  (%S also admits the leap-second
alternative 6[0-1], but a 60- or 61-second field always fails Timestamp
construction and coerces to null either way, so it is omitted.) -/
def candsS : List Char → List (Nat × List Char)
  | a :: b :: rest =>
    (if a.isDigit ∧ digitVal a ≤ 5 ∧ b.isDigit then [(10 * digitVal a + digitVal b, rest)] else [])
    ++ (if a.isDigit then [(digitVal a, b :: rest)] else [])
  | [a] => if a.isDigit then [(digitVal a, [])] else []
  | [] => []

/-- Regex match of %Y%m%d%H%M%S anchored at the start, with the engine's
leftmost-alternative preference and cross-group backtracking (findSome? moves
to the next alternative when the continuation fails). -/
def argoMatch (cs : List Char) : Option (DT × List Char) :=
  (matchY cs).bind (fun yr =>
  (candsM yr.2).findSome? (fun mr =>
  (candsD mr.2).findSome? (fun dr =>
  (candsH dr.2).findSome? (fun hr =>
  (candsS hr.2).findSome? (fun nr =>
  (candsS nr.2).findSome? (fun sr =>
  some (⟨yr.1, mr.1, dr.1, hr.1, nr.1, sr.1⟩, sr.2)))))))

/-- pd.to_datetime(token, format=%Y%m%d%H%M%S, errors=coerce), processor.py
line 190. -/
def argoParseDate (s : String) : Option DT :=
  match argoMatch s.toList with
  | some (t, []) => if validCalendar t ∧ inPandasBounds t then some t else none
  | _ => none

/-! The Argo mapping, process_argo_file lines 185-203.  A raw index row is the
eight whitespace-separated tokens of one non-comment line. -/

structure ArgoRaw where
  file : String
  date : String
  lat : String
  lon : String
  ocean : String
  profType : String
  institution : String
  dateUpdate : String
deriving DecidableEq

structure ArgoRec where
  timestamp : Option DT
  latitude : Option ℚ
  longitude : Option ℚ
  ocean : String
  profType : String
  institution : String
  temperature : Option ℚ
deriving DecidableEq

/-- One Argo row before the coordinate filter: coerced date (line 190),
coerced coordinates (lines 196-197), selected text fields (line 193), and the
always-null temperature_celsius column (line 203). -/
def mkArgoRec (r : ArgoRaw) : ArgoRec :=
  { timestamp := argoParseDate r.date
    latitude := toNumeric r.lat
    longitude := toNumeric r.lon
    ocean := r.ocean
    profType := r.profType
    institution := r.institution
    temperature := none }

/-- The Argo mapping: build rows, then dropna on latitude/longitude
(line 200). -/
def argoTransform (rows : List ArgoRaw) : List ArgoRec :=
  (rows.map mkArgoRec).filter (fun r => r.latitude.isSome && r.longitude.isSome)

def processArgoFile (rows : List ArgoRaw) (maxRows : Nat) (st : String) :
    List (String × List ArgoRec) :=
  saveChunked "argo" st maxRows (argoTransform rows)

/-! The NCEI mapping, process_ncei_file lines 224-246: fixed-width fields,
numeric coercion, a run-date timestamp stamped on every row, and the
latitude/longitude dropna. -/

structure NceiRec where
  stationId : String
  timestamp : String
  latitude : Option ℚ
  longitude : Option ℚ
  elevationM : Option ℚ
  country : String
  stationName : String
deriving DecidableEq

/-- read_fwf field: characters [a, b) of the line, whitespace-stripped. -/
def fwfField (line : String) (a b : Nat) : List Char :=
  trimList ((line.toList.drop a).take (b - a))

/-- One NCEI row before the coordinate filter; today is
pd.Timestamp.now().strftime(%Y-%m-%d) (line 237). -/
def mkNceiRec (today : String) (line : String) : NceiRec :=
  { stationId := String.mk (fwfField line 0 11)
    timestamp := today
    latitude := toNumericL (fwfField line 12 20)
    longitude := toNumericL (fwfField line 21 30)
    elevationM := toNumericL (fwfField line 31 37)
    country := String.mk ((fwfField line 38 40).take 2)
    stationName := String.mk (fwfField line 41 71) }

def nceiTransform (today : String) (lines : List String) : List NceiRec :=
  (lines.map (mkNceiRec today)).filter (fun r => r.latitude.isSome && r.longitude.isSome)

def processNceiFile (today : String) (lines : List String) (maxRows : Nat) (st : String) :
    List (String × List NceiRec) :=
  saveChunked "ncei" st maxRows (nceiTransform today lines)

/-! Source classification and process_all (lines 28-67). -/

inductive SourceTag
  | noaa
  | copernicus
  | argo
  | ncei
  | unknown
deriving DecidableEq

/-- The if/elif chain over the lowercased filename (lines 43-55). -/
def classify (filename : String) : SourceTag :=
  let f := lowerStr filename
  if containsSub ("noaa".toList) f ∨ containsSub ("jpl".toList) f then .noaa
  else if containsSub ("copernicus".toList) f then .copernicus
  else if containsSub ("argo".toList) f then .argo
  else if containsSub ("ghcnd".toList) f ∨ containsSub ("stations".toList) f then .ncei
  else .unknown

/-- A raw file: its name plus its content under each reader the dispatch may
apply to it (pd.read_csv view, whitespace-token view, raw-line view for
read_fwf); only the view matching the classification is consumed. -/
structure RawFile where
  name : String
  csv : Df
  argoRows : List ArgoRaw
  fwfLines : List String

/-- The processed_files accumulator dict (lines 30-35). -/
structure Manifest where
  noaa : List String
  copernicus : List String
  argo : List String
  ncei : List String
deriving DecidableEq

/-- Output file names one raw file contributes (lines 43-61). -/
def fileOutputs (today : String) (maxRows : Nat) (f : RawFile) : List String :=
  match classify f.name with
  | .noaa => (processNoaaFile f.csv maxRows (stemOf f.name)).map Prod.fst
  | .copernicus => (processCopFile f.csv maxRows (stemOf f.name)).map Prod.fst
  | .argo => (processArgoFile f.argoRows maxRows (stemOf f.name)).map Prod.fst
  | .ncei => (processNceiFile today f.fwfLines maxRows (stemOf f.name)).map Prod.fst
  | .unknown => []

/-- processed_files[tag].extend(files); an unknown file only logs a warning. -/
def addOutputs (m : Manifest) (t : SourceTag) (files : List String) : Manifest :=
  match t with
  | .noaa => { m with noaa := m.noaa ++ files }
  | .copernicus => { m with copernicus := m.copernicus ++ files }
  | .argo => { m with argo := m.argo ++ files }
  | .ncei => { m with ncei := m.ncei ++ files }
  | .unknown => m

/-- The processing loop (lines 37-65). -/
def processAllAux (today : String) (maxRows : Nat) : List RawFile → Manifest → Manifest
  | [], m => m
  | f :: fs, m =>
    processAllAux today maxRows fs
      (addOutputs m (classify f.name) (fileOutputs today maxRows f))

/-- DataProcessor.process_all as the returned dict, an association list with
the four fixed keys of lines 30-35. -/
def processAll (today : String) (maxRows : Nat) (files : List RawFile) :
    List (String × List String) :=
  let m := processAllAux today maxRows files ⟨[], [], [], []⟩
  [("noaa", m.noaa), ("copernicus", m.copernicus), ("argo", m.argo), ("ncei", m.ncei)]

/-! DataScraper.scrape_copernicus_sst (scrapper.py lines 91-137): a synthetic
20 by 20 grid for the date three days before the run date, with temperatures
273.15 + np.random.uniform(10, 25) drawn from the stream seeded with 42.  The
run date (datetime.now) and the seeded stream are explicit parameters; rng k
is the k-th uniform(10, 25) draw after np.random.seed(42). -/

/-- Python round: round half to even. -/
def roundHalfEven (q : ℚ) : ℤ :=
  if q - ⌊q⌋ < 1 / 2 then ⌊q⌋
  else if 1 / 2 < q - ⌊q⌋ then ⌊q⌋ + 1
  else if Even ⌊q⌋ then ⌊q⌋ else ⌊q⌋ + 1

/-- Python round(q, k). -/
def roundTo (k : Nat) (q : ℚ) : ℚ := (roundHalfEven (q * (10 : ℚ) ^ k) : ℚ) / (10 : ℚ) ^ k

/-- np.linspace a b n: n evenly spaced points including both endpoints. -/
def linspace (a b : ℚ) (n : Nat) : List ℚ :=
  (List.range n).map (fun i => a + (b - a) * (Nat.cast i) / ((n - 1 : Nat) : ℚ))

/-- The day before a calendar date. -/
def prevDay : Nat × Nat × Nat → Nat × Nat × Nat
  | (y, m, d) =>
    if 2 ≤ d then (y, m, d - 1)
    else if 2 ≤ m then (y, m - 1, daysInMonth y (m - 1))
    else (y - 1, 12, 31)

/-- datetime - timedelta(days=k) on the date part. -/
def subDays : Nat → Nat × Nat × Nat → Nat × Nat × Nat
  | 0, p => p
  | k + 1, p => subDays k (prevDay p)

/-- Zero-padded two-digit decimal (strftime %m, %d). -/
def pad2c (n : Nat) : List Char :=
  [Char.ofNat (48 + n / 10), Char.ofNat (48 + n % 10)]

/-- Zero-padded four-digit decimal (strftime %Y). -/
def pad4c (n : Nat) : List Char :=
  [Char.ofNat (48 + n / 1000), Char.ofNat (48 + n / 100 % 10),
   Char.ofNat (48 + n / 10 % 10), Char.ofNat (48 + n % 10)]

/-- strftime %Y-%m-%dT12:00:00Z (line 112). -/
def copTimeStr (p : Nat × Nat × Nat) : String :=
  String.mk (pad4c p.1) ++ "-" ++ String.mk (pad2c p.2.1) ++ "-"
    ++ String.mk (pad2c p.2.2) ++ "T12:00:00Z"

/-- copernicus_sst_YYYYMMDD.csv (line 121). -/
def copFileName (p : Nat × Nat × Nat) : String :=
  "copernicus_sst_" ++ String.mk (pad4c p.1) ++ String.mk (pad2c p.2.1)
    ++ String.mk (pad2c p.2.2) ++ ".csv"

/-- One synthetic record (lines 111-116). -/
structure CopRec where
  time : String
  latitude : ℚ
  longitude : ℚ
  analysedSst : ℚ
deriving DecidableEq

/-- scrape_copernicus_sst: the produced filename and rows.  now is the run
date; the nested loop consumes draw 20 * i + j for grid point (i, j). -/
def scrapeCopernicusSst (now : Nat × Nat × Nat) (rng : Nat → ℚ) :
    String × List CopRec :=
  let target := subDays 3 now
  let lats := linspace 35 45 20
  let lons := linspace (-15) (-5) 20
  let recs := lats.enum.flatMap (fun il =>
    lons.enum.map (fun jl =>
      { time := copTimeStr target
        latitude := roundTo 2 il.2
        longitude := roundTo 2 jl.2
        analysedSst := roundTo 3 (kelvinOffset + rng (20 * il.1 + jl.1)) : CopRec }))
  (copFileName target, recs)

/-! Claims about classification and the processing loop. -/

/-- Claim C7: the source tag is inferred from the lowercased filename by
substring tests in the fixed priority order noaa/jpl, copernicus, argo,
ghcnd/stations; a filename matching several sources is classified as the
highest-priority one. -/
theorem classification_priority (name : String) :
    ((containsSub ("noaa".toList) (lowerStr name) = true
        ∨ containsSub ("jpl".toList) (lowerStr name) = true) →
      classify name = SourceTag.noaa)
    ∧ (¬ (containsSub ("noaa".toList) (lowerStr name) = true
          ∨ containsSub ("jpl".toList) (lowerStr name) = true) →
        containsSub ("copernicus".toList) (lowerStr name) = true →
      classify name = SourceTag.copernicus)
    ∧ (¬ (containsSub ("noaa".toList) (lowerStr name) = true
          ∨ containsSub ("jpl".toList) (lowerStr name) = true) →
        ¬ containsSub ("copernicus".toList) (lowerStr name) = true →
        containsSub ("argo".toList) (lowerStr name) = true →
      classify name = SourceTag.argo)
    ∧ (¬ (containsSub ("noaa".toList) (lowerStr name) = true
          ∨ containsSub ("jpl".toList) (lowerStr name) = true) →
        ¬ containsSub ("copernicus".toList) (lowerStr name) = true →
        ¬ containsSub ("argo".toList) (lowerStr name) = true →
        (containsSub ("ghcnd".toList) (lowerStr name) = true
          ∨ containsSub ("stations".toList) (lowerStr name) = true) →
      classify name = SourceTag.ncei)
    ∧ (¬ (containsSub ("noaa".toList) (lowerStr name) = true
          ∨ containsSub ("jpl".toList) (lowerStr name) = true) →
        ¬ containsSub ("copernicus".toList) (lowerStr name) = true →
        ¬ containsSub ("argo".toList) (lowerStr name) = true →
        ¬ (containsSub ("ghcnd".toList) (lowerStr name) = true
          ∨ containsSub ("stations".toList) (lowerStr name) = true) →
      classify name = SourceTag.unknown) := by
  refine ⟨?_, ?_, ?_, ?_, ?_⟩ <;> intros <;> simp_all [classify]

/-- Witness for C7: a filename containing both a noaa and a copernicus
substring is classified noaa. -/
theorem classification_priority_witness :
    classify "NOAA_copernicus_mix.csv" = SourceTag.noaa :=
  (classification_priority "NOAA_copernicus_mix.csv").1 (by decide)

theorem processAllAux_append (today : String) (mr : Nat) (xs ys : List RawFile)
    (m : Manifest) :
    processAllAux today mr (xs ++ ys) m
      = processAllAux today mr ys (processAllAux today mr xs m) := by
  induction xs generalizing m with
  | nil => rfl
  | cons f fs ih => simp [processAllAux, ih]

/-- Claim C10: process_all returns a mapping whose key set is exactly
noaa, copernicus, argo, ncei; a file whose name matches no classification
substring contributes no output entries and its presence leaves the output of
every other file unchanged. -/
theorem manifest_keys_unknown_isolated (today : String) (maxRows : Nat)
    (files xs ys : List RawFile) (f : RawFile) :
    (processAll today maxRows files).map Prod.fst = ["noaa", "copernicus", "argo", "ncei"]
    ∧ (classify f.name = SourceTag.unknown → fileOutputs today maxRows f = [])
    ∧ (classify f.name = SourceTag.unknown →
        processAll today maxRows (xs ++ f :: ys) = processAll today maxRows (xs ++ ys)) := by
  refine ⟨rfl, ?_, ?_⟩
  · intro h
    simp [fileOutputs, h]
  · intro h
    have hstep : ∀ m, processAllAux today maxRows (f :: ys) m
        = processAllAux today maxRows ys m := by
      intro m
      simp [processAllAux, addOutputs, h]
    simp [processAll, processAllAux_append, hstep]

/-- A file that no classification substring matches. -/
def unknownFile : RawFile := ⟨"weird.bin", ⟨[], []⟩, [], []⟩

/-- A NOAA-classified file used in witnesses. -/
def noaaNamedFile : RawFile := ⟨"noaa_a.csv", ⟨[], []⟩, [], []⟩

/-- Witness for C10: inserting an unclassifiable file between two runs of the
loop changes nothing. -/
theorem manifest_keys_unknown_isolated_witness :
    processAll "2025-01-01" 9000 ([noaaNamedFile] ++ unknownFile :: [])
      = processAll "2025-01-01" 9000 ([noaaNamedFile] ++ []) :=
  (manifest_keys_unknown_isolated "2025-01-01" 9000 [] [noaaNamedFile] []
    unknownFile).2.2 (by decide)

/-- Claim C5: a NOAA file in which the substring heuristic recovers none of
the four target columns makes the mapping fail (ValueError, line 97), caught
at its own boundary (line 121): the file yields zero output files and the
loop's result on the remaining files is unchanged. -/
theorem noaa_unrecoverable_skip (df : Df) (maxRows : Nat) (st : String)
    (h : ∀ c ∈ canonCols, c ∉ noaaRenamed df) :
    noaaTransform df = none
    ∧ processNoaaFile df maxRows st = []
    ∧ (∀ (today name : String) (xs ys : List RawFile) (argoRows : List ArgoRaw)
        (fwfLines : List String), classify name = SourceTag.noaa →
        processAll today maxRows (xs ++ (⟨name, df, argoRows, fwfLines⟩ : RawFile) :: ys)
          = processAll today maxRows (xs ++ ys)) := by
  have havail : noaaAvail df = [] := by
    rw [noaaAvail, List.filter_eq_nil_iff]
    intro c hc
    simpa using h c hc
  refine ⟨?_, ?_, ?_⟩
  · simp [noaaTransform, havail]
  · simp [processNoaaFile, noaaTransform, havail]
  · intro today name xs ys a w hcl
    have hstep : ∀ m, processAllAux today maxRows ((⟨name, df, a, w⟩ : RawFile) :: ys) m
        = processAllAux today maxRows ys m := by
      intro m
      simp [processAllAux, fileOutputs, hcl, processNoaaFile, noaaTransform, havail,
        addOutputs]
    simp [processAll, processAllAux_append, hstep]

/-- A CSV whose columns match no canonical name. -/
def unrecognizableDf : Df := ⟨["foo", "bar"], [[some 1, some 2]]⟩

/-- Witness for C5. -/
theorem noaa_unrecoverable_skip_witness :
    processNoaaFile unrecognizableDf 9000 "x" = [] :=
  (noaa_unrecoverable_skip unrecognizableDf 9000 "x" (by decide)).2.1

/-! Claim C2.  The claim as stated is false: the NOAA mapping renames the
corrected column to sst_celsius (processor.py line 106) but the Copernicus
mapping subtracts without renaming (lines 159-161 contain no rename).  The
counterexample below exhibits this; the amended claim, proved afterwards,
keeps the rename for NOAA only. -/

/-- A Copernicus CSV whose temperature column has a Kelvin-scale mean. -/
def copKelvinDf : Df :=
  ⟨["time", "lat", "lon", "analysed_sst"], [[none, some 1, some 2, some 300]]⟩

/-- Counterexample to C2 as stated: on copKelvinDf the temperature mean is
300 > 200 and the value is corrected to 300 - 273.15, yet the output column
list of the Copernicus mapping still reads sea_surface_temperature, with no
Celsius-suffixed name: the renaming half of the claim fails for Copernicus. -/
theorem copernicus_no_rename_counterexample :
    sstMean (copSel copKelvinDf) > 200
    ∧ (copTransform copKelvinDf).cols = canonCols
    ∧ "sea_surface_temperature" ∈ (copTransform copKelvinDf).cols
    ∧ "sst_celsius" ∉ (copTransform copKelvinDf).cols
    ∧ (copTransform copKelvinDf).rows = [[none, some 1, some 2, some (300 - kelvinOffset)]]
    ∧ (300 : ℚ) - kelvinOffset = 2685 / 100 := by
  have hvals : colVals (copSel copKelvinDf)
      ((copSel copKelvinDf).cols.indexOf "sea_surface_temperature") = [300] := by decide
  have hmean : sstMean (copSel copKelvinDf) > 200 := by
    rw [sstMean, hvals]
    norm_num [meanQ]
  have hsel : copSel copKelvinDf
      = ⟨canonCols, [[none, some 1, some 2, some 300]]⟩ := by decide
  have hidx : canonCols.indexOf "sea_surface_temperature" = 3 := by decide
  have hmem : "sea_surface_temperature" ∈ (copSel copKelvinDf).cols := by decide
  have h2 : copCorrected (copSel copKelvinDf)
      = ⟨canonCols, [[none, some 1, some 2, some (300 - kelvinOffset)]]⟩ := by
    rw [copCorrected, if_pos ⟨hmem, hmean⟩, hsel]
    simp only [hidx]
    simp [subAt, List.enum, List.enumFrom]
  have h3 : copTransform copKelvinDf
      = ⟨canonCols, [[none, some 1, some 2, some (300 - kelvinOffset)]]⟩ := by
    rw [copTransform, h2]
    simp [dropNullCoords, canonCols]
  refine ⟨hmean, by rw [h3], by rw [h3]; decide, by rw [h3]; decide, by rw [h3], ?_⟩
  norm_num [kelvinOffset]

/-- Claim C2 (amended): when the selected temperature column's mean exceeds
200, the NOAA mapping subtracts 273.15 from every temperature cell and
renames the column to sst_celsius, while the Copernicus mapping applies the
same subtraction but keeps the name sea_surface_temperature; when the mean is
at most 200 neither mapping touches values or names.  The corrected frame is
the one whose null-coordinate rows are dropped and persisted. -/
theorem unit_correction_amended (df : Df) :
    (sstMean (noaaSel df) > 200 → "sea_surface_temperature" ∈ (noaaSel df).cols →
      noaaCorrected (noaaSel df)
        = ⟨(noaaSel df).cols.map
              (fun c => if c = "sea_surface_temperature" then "sst_celsius" else c),
            (noaaSel df).rows.map (fun r =>
              subAt r ((noaaSel df).cols.indexOf "sea_surface_temperature") kelvinOffset)⟩
      ∧ "sst_celsius" ∈ (noaaCorrected (noaaSel df)).cols
      ∧ "sea_surface_temperature" ∉ (noaaCorrected (noaaSel df)).cols)
    ∧ (¬ sstMean (noaaSel df) > 200 → noaaCorrected (noaaSel df) = noaaSel df)
    ∧ (sstMean (copSel df) > 200 →
      copCorrected (copSel df)
        = ⟨canonCols, (copSel df).rows.map (fun r => subAt r 3 kelvinOffset)⟩
      ∧ "sea_surface_temperature" ∈ (copCorrected (copSel df)).cols
      ∧ "sst_celsius" ∉ (copCorrected (copSel df)).cols)
    ∧ (¬ sstMean (copSel df) > 200 → copCorrected (copSel df) = copSel df)
    ∧ (∀ out, noaaTransform df = some out →
        out = dropNullCoords (noaaCorrected (noaaSel df)))
    ∧ copTransform df = dropNullCoords (copCorrected (copSel df)) := by
  refine ⟨?_, ?_, ?_, ?_, ?_, rfl⟩
  · intro hm hs
    have heq : noaaCorrected (noaaSel df)
        = ⟨(noaaSel df).cols.map
              (fun c => if c = "sea_surface_temperature" then "sst_celsius" else c),
            (noaaSel df).rows.map (fun r =>
              subAt r ((noaaSel df).cols.indexOf "sea_surface_temperature") kelvinOffset)⟩ := by
      rw [noaaCorrected, if_pos ⟨hs, hm⟩]
    refine ⟨heq, ?_, ?_⟩
    · rw [heq]
      exact List.mem_map.mpr ⟨_, hs, by simp⟩
    · rw [heq]
      intro hmem
      obtain ⟨c, hc, hfc⟩ := List.mem_map.mp hmem
      by_cases hcs : c = "sea_surface_temperature"
      · rw [if_pos hcs] at hfc
        exact absurd hfc (by decide)
      · rw [if_neg hcs] at hfc
        exact hcs hfc
  · intro hm
    rw [noaaCorrected, if_neg]
    rintro ⟨-, hm'⟩
    exact hm hm'
  · intro hm
    have hc : "sea_surface_temperature" ∈ (copSel df).cols := by
      show "sea_surface_temperature" ∈ canonCols
      decide
    have hidx : (copSel df).cols.indexOf "sea_surface_temperature" = 3 := by
      show canonCols.indexOf "sea_surface_temperature" = 3
      decide
    have heq : copCorrected (copSel df)
        = ⟨canonCols, (copSel df).rows.map (fun r => subAt r 3 kelvinOffset)⟩ := by
      rw [copCorrected, if_pos ⟨hc, hm⟩, hidx]
      rfl
    refine ⟨heq, ?_, ?_⟩
    · rw [heq]
      show "sea_surface_temperature" ∈ canonCols
      decide
    · rw [heq]
      show "sst_celsius" ∉ canonCols
      decide
  · intro hm
    rw [copCorrected, if_neg]
    rintro ⟨-, hm'⟩
    exact hm hm'
  · intro out hout
    simp only [noaaTransform] at hout
    by_cases h1 : noaaAvail df = []
    · rw [if_pos h1] at hout
      exact absurd hout (by simp)
    · rw [if_neg h1] at hout
      by_cases h2 : "latitude" ∈ (noaaCorrected (noaaSel df)).cols
          ∧ "longitude" ∈ (noaaCorrected (noaaSel df)).cols
      · rw [if_pos h2] at hout
        exact (Option.some_inj.mp hout).symm
      · rw [if_neg h2] at hout
        exact absurd hout (by simp)

/-- A NOAA CSV whose temperature column has a Kelvin-scale mean. -/
def noaaKelvinDf : Df :=
  ⟨["time", "lat", "lon", "sst"], [[none, some 1, some 2, some 250]]⟩

/-- Witness for the amended C2: on a Kelvin-scale NOAA frame the corrected
column list carries sst_celsius. -/
theorem unit_correction_amended_witness :
    sstMean (noaaSel noaaKelvinDf) > 200
    ∧ "sst_celsius" ∈ (noaaCorrected (noaaSel noaaKelvinDf)).cols := by
  have hvals : colVals (noaaSel noaaKelvinDf)
      ((noaaSel noaaKelvinDf).cols.indexOf "sea_surface_temperature") = [250] := by decide
  have hm : sstMean (noaaSel noaaKelvinDf) > 200 := by
    rw [sstMean, hvals]
    norm_num [meanQ]
  exact ⟨hm, ((unit_correction_amended noaaKelvinDf).1 hm (by decide)).2.1⟩

/-! Index bookkeeping lemmas for the coordinate-survival claim. -/

theorem getD_map_indexOf {β : Type} (l : List String) (g : String → β) (dflt : β)
    (a : String) (ha : a ∈ l) : (l.map g).getD (l.indexOf a) dflt = g a := by
  have h : l.indexOf a < l.length := List.indexOf_lt_length.mpr ha
  rw [List.getD_eq_getElem?_getD, List.getElem?_eq_getElem (by simpa using h)]
  simp [List.getElem_indexOf h]

theorem subAt_length (r : List Cell) (i : Nat) (v : ℚ) :
    (subAt r i v).length = r.length := by
  simp [subAt, List.enum_length]

theorem subAt_getD_ne (r : List Cell) (i j : Nat) (v : ℚ) (hne : j ≠ i) :
    (subAt r i v).getD j none = r.getD j none := by
  by_cases hj : j < r.length
  · rw [List.getD_eq_getElem?_getD, List.getD_eq_getElem?_getD,
      List.getElem?_eq_getElem (by rw [subAt_length]; exact hj),
      List.getElem?_eq_getElem hj]
    simp [subAt, List.getElem_enum, hne]
  · rw [List.getD_eq_getElem?_getD, List.getD_eq_getElem?_getD,
      List.getElem?_eq_none (by rw [subAt_length]; omega),
      List.getElem?_eq_none (by omega)]

theorem indexOf_map_iff {f : String → String} (a : String)
    (hf : ∀ x, f x = a ↔ x = a) (l : List String) :
    (l.map f).indexOf a = l.indexOf a := by
  induction l with
  | nil => rfl
  | cons x xs ih =>
    simp only [List.map_cons, List.indexOf_cons, ih]
    by_cases hx : x = a
    · have hfx : (f x == a) = true := beq_iff_eq.mpr ((hf x).mpr hx)
      have hx' : (x == a) = true := beq_iff_eq.mpr hx
      rw [hfx, hx']
    · have hfx : (f x == a) = false := beq_eq_false_iff_ne.mpr (fun h => hx ((hf x).mp h))
      have hx' : (x == a) = false := beq_eq_false_iff_ne.mpr hx
      rw [hfx, hx']

theorem indexOf_ne_of_ne (l : List String) (a b : String)
    (hab : a ≠ b) (hb : b ∈ l) : l.indexOf a ≠ l.indexOf b := by
  by_cases ha : a ∈ l
  · intro h
    have h1 : l.indexOf a < l.length := List.indexOf_lt_length.mpr ha
    have hbl : l.indexOf b < l.length := List.indexOf_lt_length.mpr hb
    have ha' : l[l.indexOf a]? = some a := by
      rw [List.getElem?_eq_getElem h1, List.getElem_indexOf h1]
    have hb' : l[l.indexOf b]? = some b := by
      rw [List.getElem?_eq_getElem hbl, List.getElem_indexOf hbl]
    rw [h, hb'] at ha'
    exact hab (Option.some_inj.mp ha'.symm)
  · intro h
    have h1 : l.indexOf a = l.length := List.indexOf_eq_length.mpr ha
    have h2 : l.indexOf b < l.length := List.indexOf_lt_length.mpr hb
    omega

theorem noaaAvail_nodup (df : Df) : (noaaAvail df).Nodup :=
  List.Nodup.filter _ (by decide)

/-- The sst-to-celsius rename only hits the temperature name. -/
theorem rename_fix (a : String) (h1 : a ≠ "sea_surface_temperature")
    (h2 : a ≠ "sst_celsius") :
    ∀ x, (if x = "sea_surface_temperature" then "sst_celsius" else x) = a ↔ x = a := by
  intro x
  by_cases hx : x = "sea_surface_temperature"
  · subst hx
    rw [if_pos rfl]
    constructor
    · intro h
      exact absurd h.symm h2
    · intro h
      exact absurd h.symm h1
  · rw [if_neg hx]

/-- Decomposition of the NOAA mapping on success (shared by C2 and C3). -/
theorem noaaTransform_some (df : Df) (out : Df) (hout : noaaTransform df = some out) :
    out = dropNullCoords (noaaCorrected (noaaSel df))
    ∧ noaaAvail df ≠ []
    ∧ "latitude" ∈ (noaaCorrected (noaaSel df)).cols
    ∧ "longitude" ∈ (noaaCorrected (noaaSel df)).cols := by
  simp only [noaaTransform] at hout
  by_cases h1 : noaaAvail df = []
  · rw [if_pos h1] at hout
    exact absurd hout (by simp)
  · rw [if_neg h1] at hout
    by_cases h2 : "latitude" ∈ (noaaCorrected (noaaSel df)).cols
        ∧ "longitude" ∈ (noaaCorrected (noaaSel df)).cols
    · rw [if_pos h2] at hout
      exact ⟨(Option.some_inj.mp hout).symm, h1, h2.1, h2.2⟩
    · rw [if_neg h2] at hout
      exact absurd hout (by simp)

theorem copCorrected_cols (d : Df) (h : d.cols = canonCols) :
    (copCorrected d).cols = canonCols := by
  by_cases hc : "sea_surface_temperature" ∈ d.cols ∧ sstMean d > 200
  · rw [copCorrected, if_pos hc]
    exact h
  · rw [copCorrected, if_neg hc]
    exact h

/-- Claim C3: in all four mappings, every row reaching persistence has
non-null latitude and longitude; the pre-persistence filter keeps exactly the
rows whose latitude and longitude cells are non-null (so no other field's
nullness drops a row, witnessed for Argo/NCEI by the explicit retention
conjuncts); and the persisted coordinate values are input coordinate values,
so they lie in the valid ranges whenever the input values do.  For the
Copernicus frame the latitude/longitude columns sit at fixed indices 1 and 2
of the canonical column list. -/
theorem coordinate_survival (df : Df) (today : String) (lines : List String)
    (argoRows : List ArgoRaw) (out : Df) :
    (noaaTransform df = some out →
      (∀ r ∈ out.rows,
          (r.getD (out.cols.indexOf "latitude") none).isSome = true
          ∧ (r.getD (out.cols.indexOf "longitude") none).isSome = true)
      ∧ out.rows = (noaaCorrected (noaaSel df)).rows.filter (fun r =>
          (r.getD ((noaaCorrected (noaaSel df)).cols.indexOf "latitude") none).isSome
          && (r.getD ((noaaCorrected (noaaSel df)).cols.indexOf "longitude") none).isSome)
      ∧ ((∀ r0 ∈ (noaaSel df).rows, ∀ q : ℚ,
            r0.getD ((noaaSel df).cols.indexOf "latitude") none = some q →
            -90 ≤ q ∧ q ≤ 90) →
          ∀ r ∈ out.rows, ∀ q : ℚ,
            r.getD (out.cols.indexOf "latitude") none = some q → -90 ≤ q ∧ q ≤ 90)
      ∧ ((∀ r0 ∈ (noaaSel df).rows, ∀ q : ℚ,
            r0.getD ((noaaSel df).cols.indexOf "longitude") none = some q →
            -180 ≤ q ∧ q ≤ 180) →
          ∀ r ∈ out.rows, ∀ q : ℚ,
            r.getD (out.cols.indexOf "longitude") none = some q → -180 ≤ q ∧ q ≤ 180))
    ∧ (∀ r ∈ (copTransform df).rows,
        (r.getD 1 none).isSome = true ∧ (r.getD 2 none).isSome = true)
    ∧ (copTransform df).rows = (copCorrected (copSel df)).rows.filter (fun r =>
        (r.getD 1 none).isSome && (r.getD 2 none).isSome)
    ∧ ((∀ r0 ∈ (copSel df).rows, ∀ q : ℚ,
          r0.getD 1 none = some q → -90 ≤ q ∧ q ≤ 90) →
        ∀ r ∈ (copTransform df).rows, ∀ q : ℚ,
          r.getD 1 none = some q → -90 ≤ q ∧ q ≤ 90)
    ∧ ((∀ r0 ∈ (copSel df).rows, ∀ q : ℚ,
          r0.getD 2 none = some q → -180 ≤ q ∧ q ≤ 180) →
        ∀ r ∈ (copTransform df).rows, ∀ q : ℚ,
          r.getD 2 none = some q → -180 ≤ q ∧ q ≤ 180)
    ∧ (∀ rec ∈ argoTransform argoRows,
        rec.latitude.isSome = true ∧ rec.longitude.isSome = true)
    ∧ argoTransform argoRows
        = (argoRows.map mkArgoRec).filter (fun r => r.latitude.isSome && r.longitude.isSome)
    ∧ (∀ raw ∈ argoRows, (toNumeric raw.lat).isSome = true →
        (toNumeric raw.lon).isSome = true → mkArgoRec raw ∈ argoTransform argoRows)
    ∧ ((∀ raw ∈ argoRows, ∀ q : ℚ, toNumeric raw.lat = some q → -90 ≤ q ∧ q ≤ 90) →
        ∀ rec ∈ argoTransform argoRows, ∀ q : ℚ,
          rec.latitude = some q → -90 ≤ q ∧ q ≤ 90)
    ∧ (∀ rec ∈ nceiTransform today lines,
        rec.latitude.isSome = true ∧ rec.longitude.isSome = true)
    ∧ nceiTransform today lines
        = (lines.map (mkNceiRec today)).filter (fun r => r.latitude.isSome && r.longitude.isSome)
    ∧ (∀ line ∈ lines, (toNumericL (fwfField line 12 20)).isSome = true →
        (toNumericL (fwfField line 21 30)).isSome = true →
        mkNceiRec today line ∈ nceiTransform today lines)
    ∧ ((∀ line ∈ lines, ∀ q : ℚ,
          toNumericL (fwfField line 12 20) = some q → -90 ≤ q ∧ q ≤ 90) →
        ∀ rec ∈ nceiTransform today lines, ∀ q : ℚ,
          rec.latitude = some q → -90 ≤ q ∧ q ≤ 90) := by
  have hcopcols : (copCorrected (copSel df)).cols = canonCols := copCorrected_cols _ rfl
  have hcopidx1 : (copCorrected (copSel df)).cols.indexOf "latitude" = 1 := by
    rw [hcopcols]
    decide
  have hcopidx2 : (copCorrected (copSel df)).cols.indexOf "longitude" = 2 := by
    rw [hcopcols]
    decide
  have hcoprows : (copTransform df).rows = (copCorrected (copSel df)).rows.filter (fun r =>
      (r.getD 1 none).isSome && (r.getD 2 none).isSome) := by
    show (dropNullCoords (copCorrected (copSel df))).rows = _
    rw [dropNullCoords]
    simp only [hcopidx1, hcopidx2]
  refine ⟨?_, ?_, hcoprows, ?_, ?_, ?_, rfl, ?_, ?_, ?_, rfl, ?_, ?_⟩
  · intro hout
    obtain ⟨hdec, -, -, -⟩ := noaaTransform_some df out hout
    subst hdec
    refine ⟨?_, rfl, ?_, ?_⟩
    · intro r hr
      have hr' := List.mem_filter.mp hr
      have hpred := hr'.2
      rw [Bool.and_eq_true] at hpred
      exact ⟨hpred.1, hpred.2⟩
    · intro hval r hr q hq
      have hr' := (List.mem_filter.mp hr).1
      by_cases hcor : "sea_surface_temperature" ∈ (noaaSel df).cols
          ∧ sstMean (noaaSel df) > 200
      · have hceq : noaaCorrected (noaaSel df)
            = ⟨(noaaSel df).cols.map
                  (fun c => if c = "sea_surface_temperature" then "sst_celsius" else c),
                (noaaSel df).rows.map (fun r =>
                  subAt r ((noaaSel df).cols.indexOf "sea_surface_temperature")
                    kelvinOffset)⟩ := by
          rw [noaaCorrected, if_pos hcor]
        rw [hceq] at hr' hq
        obtain ⟨r0, hr0, rfl⟩ := List.mem_map.mp hr'
        simp only [dropNullCoords] at hq
        have hidx : ((noaaSel df).cols.map
              (fun c => if c = "sea_surface_temperature" then "sst_celsius" else c)).indexOf
                "latitude" = (noaaSel df).cols.indexOf "latitude" :=
          indexOf_map_iff _ (rename_fix _ (by decide) (by decide)) _
        rw [hidx] at hq
        have hne : (noaaSel df).cols.indexOf "latitude"
            ≠ (noaaSel df).cols.indexOf "sea_surface_temperature" :=
          indexOf_ne_of_ne _ _ _ (by decide) hcor.1
        rw [subAt_getD_ne _ _ _ _ hne] at hq
        exact hval r0 hr0 q hq
      · have hceq : noaaCorrected (noaaSel df) = noaaSel df := by
          rw [noaaCorrected, if_neg hcor]
        rw [hceq] at hr' hq
        simp only [dropNullCoords] at hq
        exact hval r hr' q hq
    · intro hval r hr q hq
      have hr' := (List.mem_filter.mp hr).1
      by_cases hcor : "sea_surface_temperature" ∈ (noaaSel df).cols
          ∧ sstMean (noaaSel df) > 200
      · have hceq : noaaCorrected (noaaSel df)
            = ⟨(noaaSel df).cols.map
                  (fun c => if c = "sea_surface_temperature" then "sst_celsius" else c),
                (noaaSel df).rows.map (fun r =>
                  subAt r ((noaaSel df).cols.indexOf "sea_surface_temperature")
                    kelvinOffset)⟩ := by
          rw [noaaCorrected, if_pos hcor]
        rw [hceq] at hr' hq
        obtain ⟨r0, hr0, rfl⟩ := List.mem_map.mp hr'
        simp only [dropNullCoords] at hq
        have hidx : ((noaaSel df).cols.map
              (fun c => if c = "sea_surface_temperature" then "sst_celsius" else c)).indexOf
                "longitude" = (noaaSel df).cols.indexOf "longitude" :=
          indexOf_map_iff _ (rename_fix _ (by decide) (by decide)) _
        rw [hidx] at hq
        have hne : (noaaSel df).cols.indexOf "longitude"
            ≠ (noaaSel df).cols.indexOf "sea_surface_temperature" :=
          indexOf_ne_of_ne _ _ _ (by decide) hcor.1
        rw [subAt_getD_ne _ _ _ _ hne] at hq
        exact hval r0 hr0 q hq
      · have hceq : noaaCorrected (noaaSel df) = noaaSel df := by
          rw [noaaCorrected, if_neg hcor]
        rw [hceq] at hr' hq
        simp only [dropNullCoords] at hq
        exact hval r hr' q hq
  · intro r hr
    rw [hcoprows] at hr
    have hpred := (List.mem_filter.mp hr).2
    rw [Bool.and_eq_true] at hpred
    exact ⟨hpred.1, hpred.2⟩
  · intro hval r hr q hq
    rw [hcoprows] at hr
    have hr' := (List.mem_filter.mp hr).1
    by_cases hcor : "sea_surface_temperature" ∈ (copSel df).cols ∧ sstMean (copSel df) > 200
    · have hceq : copCorrected (copSel df)
          = ⟨(copSel df).cols, (copSel df).rows.map (fun r =>
              subAt r ((copSel df).cols.indexOf "sea_surface_temperature") kelvinOffset)⟩ := by
        rw [copCorrected, if_pos hcor]
      rw [hceq] at hr'
      obtain ⟨r0, hr0, rfl⟩ := List.mem_map.mp hr'
      have hsidx : (copSel df).cols.indexOf "sea_surface_temperature" = 3 := by
        show canonCols.indexOf "sea_surface_temperature" = 3
        decide
      rw [hsidx, subAt_getD_ne _ _ _ _ (by decide)] at hq
      exact hval r0 hr0 q hq
    · have hceq : copCorrected (copSel df) = copSel df := by
        rw [copCorrected, if_neg hcor]
      rw [hceq] at hr'
      exact hval r hr' q hq
  · intro hval r hr q hq
    rw [hcoprows] at hr
    have hr' := (List.mem_filter.mp hr).1
    by_cases hcor : "sea_surface_temperature" ∈ (copSel df).cols ∧ sstMean (copSel df) > 200
    · have hceq : copCorrected (copSel df)
          = ⟨(copSel df).cols, (copSel df).rows.map (fun r =>
              subAt r ((copSel df).cols.indexOf "sea_surface_temperature") kelvinOffset)⟩ := by
        rw [copCorrected, if_pos hcor]
      rw [hceq] at hr'
      obtain ⟨r0, hr0, rfl⟩ := List.mem_map.mp hr'
      have hsidx : (copSel df).cols.indexOf "sea_surface_temperature" = 3 := by
        show canonCols.indexOf "sea_surface_temperature" = 3
        decide
      rw [hsidx, subAt_getD_ne _ _ _ _ (by decide)] at hq
      exact hval r0 hr0 q hq
    · have hceq : copCorrected (copSel df) = copSel df := by
        rw [copCorrected, if_neg hcor]
      rw [hceq] at hr'
      exact hval r hr' q hq
  · intro rec hrec
    have hpred := (List.mem_filter.mp hrec).2
    rw [Bool.and_eq_true] at hpred
    exact ⟨hpred.1, hpred.2⟩
  · intro raw hraw h1 h2
    refine List.mem_filter.mpr ⟨List.mem_map_of_mem _ hraw, ?_⟩
    show ((mkArgoRec raw).latitude.isSome && (mkArgoRec raw).longitude.isSome) = true
    rw [Bool.and_eq_true]
    exact ⟨h1, h2⟩
  · intro hval rec hrec q hq
    obtain ⟨raw, hraw, rfl⟩ := List.mem_map.mp (List.mem_filter.mp hrec).1
    exact hval raw hraw q hq
  · intro rec hrec
    have hpred := (List.mem_filter.mp hrec).2
    rw [Bool.and_eq_true] at hpred
    exact ⟨hpred.1, hpred.2⟩
  · intro line hline h1 h2
    refine List.mem_filter.mpr ⟨List.mem_map_of_mem _ hline, ?_⟩
    show ((mkNceiRec today line).latitude.isSome
        && (mkNceiRec today line).longitude.isSome) = true
    rw [Bool.and_eq_true]
    exact ⟨h1, h2⟩
  · intro hval rec hrec q hq
    obtain ⟨line, hline, rfl⟩ := List.mem_map.mp (List.mem_filter.mp hrec).1
    exact hval line hline q hq

/-- A NOAA CSV with one null-longitude row and one complete row. -/
def c3Df : Df :=
  ⟨["time", "lat", "lon"], [[some 0, some 10, none], [some 0, some 20, some 30]]⟩

/-- The surviving frame of c3Df. -/
def c3Out : Df :=
  ⟨["timestamp", "latitude", "longitude"], [[some 0, some 20, some 30]]⟩

/-- Witness for C3: the null-longitude row is dropped and the surviving row
has non-null coordinates. -/
theorem coordinate_survival_witness :
    noaaTransform c3Df = some c3Out
    ∧ (([some 0, some 20, some 30] : List Cell).getD
        (c3Out.cols.indexOf "latitude") none).isSome = true := by
  have hout : noaaTransform c3Df = some c3Out := by decide
  exact ⟨hout,
    (((coordinate_survival c3Df "t" [] [] c3Out).1 hout).1 _ (by decide)).1⟩

/-! Claims C4 and C9: the synthetic Copernicus retrieval.  Both claims as
stated are false in one respect each.  C4: the output is NOT independent of
when the run happens, because the time field and the filename are derived
from datetime.now() minus three days (scrapper.py lines 99, 112, 121).  C9:
np.random.uniform(10, 25) samples the half-open interval [10, 25), so the
pre-rounding temperature 273.15 + u lies in [283.15, 298.15): the upper bound
is strict but the lower bound can be attained, contradicting "strictly
between". -/

/-- A draw stream constantly 12, inside the uniform(10, 25) contract. -/
def rngConst : Nat → ℚ := fun _ => 12

/-- Counterexample to C4 as stated: same seed-stream, same grid parameters,
different run dates: the filenames (and time fields) differ, so the two
invocations are not byte-identical independent of when they run. -/
theorem copernicus_run_date_counterexample :
    (scrapeCopernicusSst (2026, 10, 12) rngConst).1
      ≠ (scrapeCopernicusSst (2026, 10, 13) rngConst).1
    ∧ scrapeCopernicusSst (2026, 10, 12) rngConst
      ≠ scrapeCopernicusSst (2026, 10, 13) rngConst := by
  have h1 : (scrapeCopernicusSst (2026, 10, 12) rngConst).1
      ≠ (scrapeCopernicusSst (2026, 10, 13) rngConst).1 := by decide
  exact ⟨h1, fun h => h1 (congrArg Prod.fst h)⟩

/-- Claim C4 (amended): the retrieval is a pure function of the run date and
the seeded draw stream: equal dates and streams give identical output; the
coordinates and temperatures do not depend on the run date at all; only the
time field and the filename do, and they equal the run date minus three
days. -/
theorem copernicus_determinism_amended (d1 d2 : Nat × Nat × Nat) (rng : Nat → ℚ) :
    (d1 = d2 → scrapeCopernicusSst d1 rng = scrapeCopernicusSst d2 rng)
    ∧ (scrapeCopernicusSst d1 rng).2.map (fun r => (r.latitude, r.longitude, r.analysedSst))
        = (scrapeCopernicusSst d2 rng).2.map (fun r => (r.latitude, r.longitude, r.analysedSst))
    ∧ (∀ r ∈ (scrapeCopernicusSst d1 rng).2, r.time = copTimeStr (subDays 3 d1))
    ∧ (scrapeCopernicusSst d1 rng).1 = copFileName (subDays 3 d1) := by
  refine ⟨fun h => by rw [h], ?_, ?_, rfl⟩
  · simp only [scrapeCopernicusSst, List.map_flatMap, List.map_map]
    rfl
  · intro r hr
    simp only [scrapeCopernicusSst] at hr
    obtain ⟨il, -, hr2⟩ := List.mem_flatMap.mp hr
    obtain ⟨jl, -, rfl⟩ := List.mem_map.mp hr2
    rfl

/-- Witness for the amended C4 at an equal pair of run dates. -/
theorem copernicus_determinism_amended_witness :
    scrapeCopernicusSst (2026, 1, 2) rngConst = scrapeCopernicusSst (2026, 1, 2) rngConst :=
  (copernicus_determinism_amended (2026, 1, 2) (2026, 1, 2) rngConst).1 rfl

theorem length_flatMap_const {α β : Type} (l : List α) (f : α → List β) (n : Nat)
    (h : ∀ a ∈ l, (f a).length = n) : (l.flatMap f).length = l.length * n := by
  induction l with
  | nil => simp
  | cons x xs ih =>
    simp only [List.flatMap_cons, List.length_append, h x (List.mem_cons_self _ _),
      ih (fun a ha => h a (List.mem_cons_of_mem _ ha)), List.length_cons]
    ring

theorem roundHalfEven_ge_floor (q : ℚ) : ⌊q⌋ ≤ roundHalfEven q := by
  unfold roundHalfEven
  split_ifs <;> omega

theorem roundHalfEven_le_ceil (q : ℚ) : roundHalfEven q ≤ ⌈q⌉ := by
  have hfc : ⌊q⌋ ≤ ⌈q⌉ := Int.floor_le_ceil q
  unfold roundHalfEven
  split_ifs with h1 h2 h3
  · exact hfc
  · have hq : (⌊q⌋ : ℚ) < q := by linarith
    have h5 : (⌊q⌋ : ℚ) < (⌈q⌉ : ℚ) := lt_of_lt_of_le hq (Int.le_ceil q)
    have h6 : ⌊q⌋ < ⌈q⌉ := by exact_mod_cast h5
    omega
  · exact hfc
  · have hq : (⌊q⌋ : ℚ) < q := by
      push_neg at h1 h2
      have h7 : q - ⌊q⌋ = 1 / 2 := le_antisymm h2 h1
      linarith
    have h5 : (⌊q⌋ : ℚ) < (⌈q⌉ : ℚ) := lt_of_lt_of_le hq (Int.le_ceil q)
    have h6 : ⌊q⌋ < ⌈q⌉ := by exact_mod_cast h5
    omega

theorem roundHalfEven_intCast (z : ℤ) : roundHalfEven (z : ℚ) = z := by
  rw [roundHalfEven, Int.floor_intCast, if_pos (by norm_num)]

/-- If an argument is bracketed by integer multiples of the scale, its Python
rounding is bracketed by the corresponding decimals. -/
theorem roundTo_bounds (k : Nat) (x : ℚ) (lo hi : ℤ)
    (hlo : (lo : ℚ) ≤ x * (10 : ℚ) ^ k) (hhi : x * (10 : ℚ) ^ k ≤ (hi : ℚ)) :
    (lo : ℚ) / (10 : ℚ) ^ k ≤ roundTo k x ∧ roundTo k x ≤ (hi : ℚ) / (10 : ℚ) ^ k := by
  have hpow : (0 : ℚ) < (10 : ℚ) ^ k := by positivity
  constructor
  · rw [roundTo, div_le_div_iff_of_pos_right hpow]
    have h1 : lo ≤ ⌊x * (10 : ℚ) ^ k⌋ := Int.le_floor.mpr hlo
    have h2 : ⌊x * (10 : ℚ) ^ k⌋ ≤ roundHalfEven (x * (10 : ℚ) ^ k) :=
      roundHalfEven_ge_floor _
    exact_mod_cast le_trans h1 h2
  · rw [roundTo, div_le_div_iff_of_pos_right hpow]
    have h1 : ⌈x * (10 : ℚ) ^ k⌉ ≤ hi := Int.ceil_le.mpr hhi
    have h2 : roundHalfEven (x * (10 : ℚ) ^ k) ≤ ⌈x * (10 : ℚ) ^ k⌉ :=
      roundHalfEven_le_ceil _
    exact_mod_cast le_trans h2 h1

/-- A draw stream constantly at the lower uniform(10, 25) endpoint, which
numpy documents as attainable (samples lie in [low, high)). -/
def rngLow : Nat → ℚ := fun _ => 10

/-- Counterexample to C9 as stated: with an in-contract stream whose first
draw is exactly 10, the first generated temperature is exactly
283.15 = 273.15 + 10 before (and after) rounding, which is not strictly
greater than 283.15. -/
theorem copernicus_temp_lower_counterexample :
    (10 ≤ rngLow 0 ∧ rngLow 0 < 25)
    ∧ ((scrapeCopernicusSst (2026, 10, 12) rngLow).2.map CopRec.analysedSst).head?
        = some (roundTo 3 (kelvinOffset + 10))
    ∧ roundTo 3 (kelvinOffset + 10) = 28315 / 100
    ∧ ¬ (28315 / 100 : ℚ) < 28315 / 100 := by
  refine ⟨by norm_num [rngLow], rfl, ?_, by norm_num⟩
  have h1 : (kelvinOffset + 10) * (10 : ℚ) ^ 3 = ((283150 : ℤ) : ℚ) := by
    norm_num [kelvinOffset]
  rw [roundTo, h1, roundHalfEven_intCast]
  norm_num

/-- Claim C9 (amended): the synthetic retrieval yields exactly 400 records
(a 20 by 20 grid); every latitude lies in [35, 45] and every longitude in
[-15, -5]; and every temperature comes from a draw k as
round(273.15 + rng k, 3) with 283.15 ≤ 273.15 + rng k < 298.15 before
rounding, assuming only the documented uniform(10, 25) contract on the
stream. -/
theorem copernicus_grid_amended (now : Nat × Nat × Nat) (rng : Nat → ℚ)
    (hrng : ∀ k, 10 ≤ rng k ∧ rng k < 25) :
    (scrapeCopernicusSst now rng).2.length = 400
    ∧ (∀ r ∈ (scrapeCopernicusSst now rng).2,
        35 ≤ r.latitude ∧ r.latitude ≤ 45 ∧ -15 ≤ r.longitude ∧ r.longitude ≤ -5)
    ∧ (∀ r ∈ (scrapeCopernicusSst now rng).2, ∃ k,
        r.analysedSst = roundTo 3 (kelvinOffset + rng k)
        ∧ 28315 / 100 ≤ kelvinOffset + rng k
        ∧ kelvinOffset + rng k < 29815 / 100) := by
  have hlat : ∀ i : Nat, i < 20 →
      35 ≤ roundTo 2 ((linspace 35 45 20).getD i 0)
      ∧ roundTo 2 ((linspace 35 45 20).getD i 0) ≤ 45 := by
    intro i hi
    have hval : (linspace 35 45 20).getD i 0 = 35 + (45 - 35) * (i : ℚ) / 19 := by
      rw [linspace, List.getD_eq_getElem?_getD,
        List.getElem?_eq_getElem (by simpa using hi)]
      simp only [Option.getD_some, List.getElem_map, List.getElem_range]
      norm_num
    have hge : (35 : ℚ) ≤ (linspace 35 45 20).getD i 0 := by
      rw [hval]
      have : (0 : ℚ) ≤ (i : ℚ) := by positivity
      nlinarith
    have hle : (linspace 35 45 20).getD i 0 ≤ 45 := by
      rw [hval]
      have : (i : ℚ) ≤ 19 := by exact_mod_cast Nat.le_of_lt_succ hi
      nlinarith
    have hb := roundTo_bounds 2 ((linspace 35 45 20).getD i 0) 3500 4500
      (by push_cast; nlinarith) (by push_cast; nlinarith)
    constructor
    · calc (35 : ℚ) = ((3500 : ℤ) : ℚ) / (10 : ℚ) ^ 2 := by norm_num
        _ ≤ _ := hb.1
    · calc roundTo 2 ((linspace 35 45 20).getD i 0)
          ≤ ((4500 : ℤ) : ℚ) / (10 : ℚ) ^ 2 := hb.2
        _ = 45 := by norm_num
  have hlon : ∀ j : Nat, j < 20 →
      -15 ≤ roundTo 2 ((linspace (-15) (-5) 20).getD j 0)
      ∧ roundTo 2 ((linspace (-15) (-5) 20).getD j 0) ≤ -5 := by
    intro j hj
    have hval : (linspace (-15) (-5) 20).getD j 0 = -15 + (-5 - -15) * (j : ℚ) / 19 := by
      rw [linspace, List.getD_eq_getElem?_getD,
        List.getElem?_eq_getElem (by simpa using hj)]
      simp only [Option.getD_some, List.getElem_map, List.getElem_range]
      norm_num
    have hge : (-15 : ℚ) ≤ (linspace (-15) (-5) 20).getD j 0 := by
      rw [hval]
      have : (0 : ℚ) ≤ (j : ℚ) := by positivity
      nlinarith
    have hle : (linspace (-15) (-5) 20).getD j 0 ≤ -5 := by
      rw [hval]
      have : (j : ℚ) ≤ 19 := by exact_mod_cast Nat.le_of_lt_succ hj
      nlinarith
    have hb := roundTo_bounds 2 ((linspace (-15) (-5) 20).getD j 0) (-1500) (-500)
      (by push_cast; nlinarith) (by push_cast; nlinarith)
    constructor
    · calc (-15 : ℚ) = ((-1500 : ℤ) : ℚ) / (10 : ℚ) ^ 2 := by norm_num
        _ ≤ _ := hb.1
    · calc roundTo 2 ((linspace (-15) (-5) 20).getD j 0)
          ≤ ((-500 : ℤ) : ℚ) / (10 : ℚ) ^ 2 := hb.2
        _ = -5 := by norm_num
  refine ⟨?_, ?_, ?_⟩
  · simp only [scrapeCopernicusSst]
    rw [length_flatMap_const _ _ 20
        (fun a _ => by simp [linspace, List.enum_length]),
      List.enum_length]
    simp [linspace]
  · intro r hr
    simp only [scrapeCopernicusSst] at hr
    obtain ⟨il, hil, hr2⟩ := List.mem_flatMap.mp hr
    obtain ⟨jl, hjl, rfl⟩ := List.mem_map.mp hr2
    obtain ⟨il1, il2⟩ := il
    obtain ⟨jl1, jl2⟩ := jl
    obtain ⟨hi, hieq⟩ := List.mem_enum hil
    obtain ⟨hj, hjeq⟩ := List.mem_enum hjl
    have hi20 : il1 < 20 := by simpa [linspace] using hi
    have hj20 : jl1 < 20 := by simpa [linspace] using hj
    have hieq' : il2 = (linspace 35 45 20).getD il1 0 := by
      rw [hieq, List.getD_eq_getElem?_getD, List.getElem?_eq_getElem hi]
      rfl
    have hjeq' : jl2 = (linspace (-15) (-5) 20).getD jl1 0 := by
      rw [hjeq, List.getD_eq_getElem?_getD, List.getElem?_eq_getElem hj]
      rfl
    have hb1 := hlat il1 hi20
    have hb2 := hlon jl1 hj20
    rw [← hieq'] at hb1
    rw [← hjeq'] at hb2
    exact ⟨hb1.1, hb1.2, hb2.1, hb2.2⟩
  · intro r hr
    simp only [scrapeCopernicusSst] at hr
    obtain ⟨il, -, hr2⟩ := List.mem_flatMap.mp hr
    obtain ⟨jl, -, rfl⟩ := List.mem_map.mp hr2
    refine ⟨20 * il.1 + jl.1, rfl, ?_, ?_⟩
    · have := (hrng (20 * il.1 + jl.1)).1
      rw [kelvinOffset]
      linarith
    · have := (hrng (20 * il.1 + jl.1)).2
      rw [kelvinOffset]
      linarith

/-- Witness for the amended C9 with the constant in-contract stream 12. -/
theorem copernicus_grid_amended_witness :
    (10 ≤ rngConst 0 ∧ rngConst 0 < 25)
    ∧ (scrapeCopernicusSst (2026, 1, 2) rngConst).2.length = 400 :=
  ⟨by norm_num [rngConst],
   (copernicus_grid_amended (2026, 1, 2) rngConst
      (fun k => by norm_num [rngConst])).1⟩

/-! Claim C6: Argo date coercion.  The zero-padded rendering of a timestamp
and the facts that the strptime matcher accepts it and rejects non-digit or
wrong-length tokens. -/

/-- The YYYYMMDDHHMMSS rendering of a timestamp, zero-padded per field. -/
def renderDT (t : DT) : String :=
  String.mk (pad4c t.y ++ pad2c t.mo ++ pad2c t.d ++ pad2c t.h ++ pad2c t.mi ++ pad2c t.s)

theorem digitChar_isDigit (n : Nat) (h : n ≤ 9) : (Char.ofNat (48 + n)).isDigit = true := by
  interval_cases n <;> decide

theorem digitVal_digitChar (n : Nat) (h : n ≤ 9) : digitVal (Char.ofNat (48 + n)) = n := by
  interval_cases n <;> decide

theorem daysInMonth_le (y m : Nat) : daysInMonth y m ≤ 31 := by
  unfold daysInMonth
  split_ifs <;> omega

theorem matchY_pad (y : Nat) (hy : y ≤ 9999) (rest : List Char) :
    matchY (pad4c y ++ rest) = some (y, rest) := by
  show matchY (Char.ofNat (48 + y / 1000) :: Char.ofNat (48 + y / 100 % 10)
      :: Char.ofNat (48 + y / 10 % 10) :: Char.ofNat (48 + y % 10) :: rest) = _
  rw [matchY, if_pos ⟨digitChar_isDigit _ (by omega), digitChar_isDigit _ (by omega),
    digitChar_isDigit _ (by omega), digitChar_isDigit _ (by omega)⟩]
  rw [digitVal_digitChar _ (by omega), digitVal_digitChar _ (by omega),
    digitVal_digitChar _ (by omega), digitVal_digitChar _ (by omega)]
  have hval : 1000 * (y / 1000) + 100 * (y / 100 % 10) + 10 * (y / 10 % 10) + y % 10 = y := by
    omega
  rw [hval]

theorem findSome?_of_head {α β : Type} (l : List α) (a : α) (b : β) (f : α → Option β)
    (hh : l.head? = some a) (hf : f a = some b) : l.findSome? f = some b := by
  cases l with
  | nil => simp at hh
  | cons x xs =>
    rw [List.head?_cons] at hh
    obtain rfl := Option.some_inj.mp hh
    rw [List.findSome?_cons, hf]

theorem candsM_pad (mo : Nat) (h1 : 1 ≤ mo) (h2 : mo ≤ 12) (rest : List Char) :
    (candsM (pad2c mo ++ rest)).head? = some (mo, rest) := by
  rcases Nat.lt_or_ge mo 10 with h | h
  · have hd : mo / 10 = 0 := by omega
    have hm : mo % 10 = mo := by omega
    show (candsM (Char.ofNat (48 + mo / 10) :: Char.ofNat (48 + mo % 10) :: rest)).head? = _
    rw [hd, hm, candsM]
    rw [if_neg (fun hc => absurd hc.1 (by decide)),
      if_pos ⟨by decide, digitChar_isDigit mo (by omega),
        by rw [digitVal_digitChar mo (by omega)]; omega⟩]
    rw [digitVal_digitChar mo (by omega)]
    rfl
  · have hd : mo / 10 = 1 := by omega
    show (candsM (Char.ofNat (48 + mo / 10) :: Char.ofNat (48 + mo % 10) :: rest)).head? = _
    rw [hd, candsM]
    rw [if_pos ⟨by decide, digitChar_isDigit _ (by omega),
      by rw [digitVal_digitChar _ (by omega)]; omega⟩]
    rw [digitVal_digitChar _ (by omega)]
    have hval : 10 + mo % 10 = mo := by omega
    rw [hval]
    rfl

theorem candsD_pad (d : Nat) (h1 : 1 ≤ d) (h2 : d ≤ 31) (rest : List Char) :
    (candsD (pad2c d ++ rest)).head? = some (d, rest) := by
  have hnine : d % 10 ≤ 9 := by omega
  rcases Nat.lt_or_ge d 10 with h | h
  · have hd : d / 10 = 0 := by omega
    have hm : d % 10 = d := by omega
    show (candsD (Char.ofNat (48 + d / 10) :: Char.ofNat (48 + d % 10) :: rest)).head? = _
    rw [hd, hm, candsD]
    rw [if_neg (fun hc => absurd hc.1 (by decide)),
      if_neg (fun hc => by rcases hc.1 with hx | hx <;> exact absurd hx (by decide)),
      if_pos ⟨by decide, digitChar_isDigit d (by omega),
        by rw [digitVal_digitChar d (by omega)]; omega⟩]
    rw [digitVal_digitChar d (by omega)]
    rfl
  · rcases Nat.lt_or_ge d 30 with h30 | h30
    · have hd : d / 10 = 1 ∨ d / 10 = 2 := by omega
      show (candsD (Char.ofNat (48 + d / 10) :: Char.ofNat (48 + d % 10) :: rest)).head? = _
      rw [candsD]
      rw [if_neg (fun hc => by
          rcases hd with hd | hd <;> rw [hd] at hc <;> exact absurd hc.1 (by decide)),
        if_pos ⟨by rcases hd with hd | hd <;> rw [hd] <;> [left; right] <;> decide,
          digitChar_isDigit _ hnine⟩]
      rw [digitVal_digitChar _ hnine, digitVal_digitChar _ (by omega)]
      have hval : 10 * (d / 10) + d % 10 = d := by omega
      rw [hval]
      rfl
    · have hd : d / 10 = 3 := by omega
      have hm : d % 10 = 0 ∨ d % 10 = 1 := by omega
      show (candsD (Char.ofNat (48 + d / 10) :: Char.ofNat (48 + d % 10) :: rest)).head? = _
      rw [hd, candsD]
      rw [if_pos ⟨by decide,
        by rcases hm with hm | hm <;> rw [hm] <;> [left; right] <;> decide⟩]
      rw [digitVal_digitChar _ hnine]
      have hval : 30 + d % 10 = d := by omega
      rw [hval]
      rfl

theorem candsH_pad (h : Nat) (h2 : h ≤ 23) (rest : List Char) :
    (candsH (pad2c h ++ rest)).head? = some (h, rest) := by
  have hnine : h % 10 ≤ 9 := by omega
  rcases Nat.lt_or_ge h 20 with hlt | hge
  · have hd : h / 10 = 0 ∨ h / 10 = 1 := by omega
    show (candsH (Char.ofNat (48 + h / 10) :: Char.ofNat (48 + h % 10) :: rest)).head? = _
    rw [candsH]
    rw [if_neg (fun hc => by
        rcases hd with hd | hd <;> rw [hd] at hc <;> exact absurd hc.1 (by decide)),
      if_pos ⟨by rcases hd with hd | hd <;> rw [hd] <;> [left; right] <;> decide,
        digitChar_isDigit _ hnine⟩]
    rw [digitVal_digitChar _ hnine, digitVal_digitChar _ (by omega)]
    have hval : 10 * (h / 10) + h % 10 = h := by omega
    rw [hval]
    rfl
  · have hd : h / 10 = 2 := by omega
    show (candsH (Char.ofNat (48 + h / 10) :: Char.ofNat (48 + h % 10) :: rest)).head? = _
    rw [hd, candsH]
    rw [if_pos ⟨by decide, digitChar_isDigit _ hnine,
      by rw [digitVal_digitChar _ hnine]; omega⟩]
    rw [digitVal_digitChar _ hnine]
    have hval : 20 + h % 10 = h := by omega
    rw [hval]
    rfl

theorem candsS_pad (x : Nat) (h2 : x ≤ 59) (rest : List Char) :
    (candsS (pad2c x ++ rest)).head? = some (x, rest) := by
  have hnine : x % 10 ≤ 9 := by omega
  show (candsS (Char.ofNat (48 + x / 10) :: Char.ofNat (48 + x % 10) :: rest)).head? = _
  rw [candsS]
  rw [if_pos ⟨digitChar_isDigit _ (by omega),
    by rw [digitVal_digitChar _ (by omega)]; omega, digitChar_isDigit _ hnine⟩]
  rw [digitVal_digitChar _ hnine, digitVal_digitChar _ (by omega)]
  have hval : 10 * (x / 10) + x % 10 = x := by omega
  rw [hval]
  rfl

theorem argoMatch_render (t : DT) (hv : validCalendar t) :
    argoMatch (renderDT t).toList = some (t, []) := by
  obtain ⟨h1, h2, h3, h4, h5, h6, h7, h8, h9⟩ := hv
  have hd31 : t.d ≤ 31 := le_trans h6 (daysInMonth_le t.y t.mo)
  have hlist : (renderDT t).toList
      = pad4c t.y ++ (pad2c t.mo ++ (pad2c t.d ++ (pad2c t.h
        ++ (pad2c t.mi ++ pad2c t.s)))) := by
    show pad4c t.y ++ pad2c t.mo ++ pad2c t.d ++ pad2c t.h ++ pad2c t.mi ++ pad2c t.s = _
    simp [List.append_assoc]
  rw [hlist]
  simp only [argoMatch]
  rw [matchY_pad t.y h2, Option.some_bind]
  refine findSome?_of_head _ _ _ _ (candsM_pad t.mo h3 h4 _) ?_
  dsimp only
  refine findSome?_of_head _ _ _ _ (candsD_pad t.d h5 hd31 _) ?_
  dsimp only
  refine findSome?_of_head _ _ _ _ (candsH_pad t.h h7 _) ?_
  dsimp only
  refine findSome?_of_head _ _ _ _ (candsS_pad t.mi h8 _) ?_
  dsimp only
  have he5 := candsS_pad t.s h9 []
  rw [List.append_nil] at he5
  exact findSome?_of_head _ _ _ _ he5 rfl

/-- A well-formed zero-padded token within the pandas range parses to the
matching timestamp. -/
theorem argo_wellformed_parses (t : DT) (hv : validCalendar t) (hb : inPandasBounds t) :
    argoParseDate (renderDT t) = some t := by
  unfold argoParseDate
  rw [argoMatch_render t hv]
  exact if_pos ⟨hv, hb⟩

theorem mem_if_singleton {α : Type} {C : Prop} [Decidable C] {x v : α}
    (h : v ∈ (if C then [x] else [])) : C ∧ v = x := by
  split_ifs at h with hc
  · exact ⟨hc, by simpa using h⟩
  · simp at h

theorem matchY_consume (cs : List Char) (y : Nat) (rest : List Char)
    (h : matchY cs = some (y, rest)) :
    ∃ pre, cs = pre ++ rest ∧ pre.length = 4 ∧ ∀ c ∈ pre, c.isDigit = true := by
  match cs with
  | [] => simp [matchY] at h
  | [a] => simp [matchY] at h
  | [a, b] => simp [matchY] at h
  | [a, b, c] => simp [matchY] at h
  | a :: b :: c :: d :: rest' =>
    rw [matchY] at h
    split_ifs at h with h1
    have hrest : rest' = rest := congrArg Prod.snd (Option.some_inj.mp h)
    subst hrest
    refine ⟨[a, b, c, d], rfl, rfl, ?_⟩
    intro c' hc'
    simp only [List.mem_cons, List.not_mem_nil, or_false] at hc'
    rcases hc' with rfl | rfl | rfl | rfl
    · exact h1.1
    · exact h1.2.1
    · exact h1.2.2.1
    · exact h1.2.2.2

theorem candsM_consume (cs : List Char) (vr : Nat × List Char) (h : vr ∈ candsM cs) :
    ∃ pre, cs = pre ++ vr.2 ∧ 1 ≤ pre.length ∧ pre.length ≤ 2
      ∧ ∀ c ∈ pre, c.isDigit = true := by
  match cs with
  | [] => simp [candsM] at h
  | [a] =>
    rw [candsM] at h
    split_ifs at h with h1
    · obtain rfl : vr = (digitVal a, []) := by simpa using h
      exact ⟨[a], by simp, by simp, by simp, by
        intro c' hc'
        simp only [List.mem_singleton] at hc'
        subst hc'
        exact h1.1⟩
    · simp at h
  | a :: b :: rest =>
    rw [candsM] at h
    rcases List.mem_append.mp h with h' | h'
    · rcases List.mem_append.mp h' with h'' | h''
      · obtain ⟨hc, rfl⟩ := mem_if_singleton h''
        refine ⟨[a, b], rfl, by simp, by simp, ?_⟩
        intro c' hc'
        simp only [List.mem_cons, List.not_mem_nil, or_false] at hc'
        rcases hc' with rfl | rfl
        · rw [hc.1]; decide
        · exact hc.2.1
      · obtain ⟨hc, rfl⟩ := mem_if_singleton h''
        refine ⟨[a, b], rfl, by simp, by simp, ?_⟩
        intro c' hc'
        simp only [List.mem_cons, List.not_mem_nil, or_false] at hc'
        rcases hc' with rfl | rfl
        · rw [hc.1]; decide
        · exact hc.2.1
    · obtain ⟨hc, rfl⟩ := mem_if_singleton h'
      refine ⟨[a], rfl, by simp, by simp, ?_⟩
      intro c' hc'
      simp only [List.mem_singleton] at hc'
      subst hc'
      exact hc.1

theorem candsD_consume (cs : List Char) (vr : Nat × List Char) (h : vr ∈ candsD cs) :
    ∃ pre, cs = pre ++ vr.2 ∧ 1 ≤ pre.length ∧ pre.length ≤ 2
      ∧ ∀ c ∈ pre, c.isDigit = true := by
  match cs with
  | [] => simp [candsD] at h
  | [a] =>
    rw [candsD] at h
    split_ifs at h with h1
    · obtain rfl : vr = (digitVal a, []) := by simpa using h
      exact ⟨[a], by simp, by simp, by simp, by
        intro c' hc'
        simp only [List.mem_singleton] at hc'
        subst hc'
        exact h1.1⟩
    · simp at h
  | a :: b :: rest =>
    rw [candsD] at h
    rcases List.mem_append.mp h with h' | h'
    · rcases List.mem_append.mp h' with h'' | h''
      · rcases List.mem_append.mp h'' with h3 | h3
        · obtain ⟨hc, rfl⟩ := mem_if_singleton h3
          refine ⟨[a, b], rfl, by simp, by simp, ?_⟩
          intro c' hc'
          simp only [List.mem_cons, List.not_mem_nil, or_false] at hc'
          rcases hc' with rfl | rfl
          · rw [hc.1]; decide
          · rcases hc.2 with hb | hb <;> rw [hb] <;> decide
        · obtain ⟨hc, rfl⟩ := mem_if_singleton h3
          refine ⟨[a, b], rfl, by simp, by simp, ?_⟩
          intro c' hc'
          simp only [List.mem_cons, List.not_mem_nil, or_false] at hc'
          rcases hc' with rfl | rfl
          · rcases hc.1 with ha | ha <;> rw [ha] <;> decide
          · exact hc.2
      · obtain ⟨hc, rfl⟩ := mem_if_singleton h''
        refine ⟨[a, b], rfl, by simp, by simp, ?_⟩
        intro c' hc'
        simp only [List.mem_cons, List.not_mem_nil, or_false] at hc'
        rcases hc' with rfl | rfl
        · rw [hc.1]; decide
        · exact hc.2.1
    · obtain ⟨hc, rfl⟩ := mem_if_singleton h'
      refine ⟨[a], rfl, by simp, by simp, ?_⟩
      intro c' hc'
      simp only [List.mem_singleton] at hc'
      subst hc'
      exact hc.1

theorem candsH_consume (cs : List Char) (vr : Nat × List Char) (h : vr ∈ candsH cs) :
    ∃ pre, cs = pre ++ vr.2 ∧ 1 ≤ pre.length ∧ pre.length ≤ 2
      ∧ ∀ c ∈ pre, c.isDigit = true := by
  match cs with
  | [] => simp [candsH] at h
  | [a] =>
    rw [candsH] at h
    split_ifs at h with h1
    · obtain rfl : vr = (digitVal a, []) := by simpa using h
      exact ⟨[a], by simp, by simp, by simp, by
        intro c' hc'
        simp only [List.mem_singleton] at hc'
        subst hc'
        exact h1⟩
    · simp at h
  | a :: b :: rest =>
    rw [candsH] at h
    rcases List.mem_append.mp h with h' | h'
    · rcases List.mem_append.mp h' with h'' | h''
      · obtain ⟨hc, rfl⟩ := mem_if_singleton h''
        refine ⟨[a, b], rfl, by simp, by simp, ?_⟩
        intro c' hc'
        simp only [List.mem_cons, List.not_mem_nil, or_false] at hc'
        rcases hc' with rfl | rfl
        · rw [hc.1]; decide
        · exact hc.2.1
      · obtain ⟨hc, rfl⟩ := mem_if_singleton h''
        refine ⟨[a, b], rfl, by simp, by simp, ?_⟩
        intro c' hc'
        simp only [List.mem_cons, List.not_mem_nil, or_false] at hc'
        rcases hc' with rfl | rfl
        · rcases hc.1 with ha | ha <;> rw [ha] <;> decide
        · exact hc.2
    · obtain ⟨hc, rfl⟩ := mem_if_singleton h'
      refine ⟨[a], rfl, by simp, by simp, ?_⟩
      intro c' hc'
      simp only [List.mem_singleton] at hc'
      subst hc'
      exact hc

theorem candsS_consume (cs : List Char) (vr : Nat × List Char) (h : vr ∈ candsS cs) :
    ∃ pre, cs = pre ++ vr.2 ∧ 1 ≤ pre.length ∧ pre.length ≤ 2
      ∧ ∀ c ∈ pre, c.isDigit = true := by
  match cs with
  | [] => simp [candsS] at h
  | [a] =>
    rw [candsS] at h
    split_ifs at h with h1
    · obtain rfl : vr = (digitVal a, []) := by simpa using h
      exact ⟨[a], by simp, by simp, by simp, by
        intro c' hc'
        simp only [List.mem_singleton] at hc'
        subst hc'
        exact h1⟩
    · simp at h
  | a :: b :: rest =>
    rw [candsS] at h
    rcases List.mem_append.mp h with h' | h'
    · obtain ⟨hc, rfl⟩ := mem_if_singleton h'
      refine ⟨[a, b], rfl, by simp, by simp, ?_⟩
      intro c' hc'
      simp only [List.mem_cons, List.not_mem_nil, or_false] at hc'
      rcases hc' with rfl | rfl
      · exact hc.1
      · exact hc.2.2
    · obtain ⟨hc, rfl⟩ := mem_if_singleton h'
      refine ⟨[a], rfl, by simp, by simp, ?_⟩
      intro c' hc'
      simp only [List.mem_singleton] at hc'
      subst hc'
      exact hc

theorem argoMatch_consume (cs : List Char) (t : DT) (rest : List Char)
    (h : argoMatch cs = some (t, rest)) :
    ∃ pre, cs = pre ++ rest ∧ 9 ≤ pre.length ∧ pre.length ≤ 14
      ∧ ∀ c ∈ pre, c.isDigit = true := by
  simp only [argoMatch] at h
  cases hY : matchY cs with
  | none => rw [hY] at h; simp at h
  | some yr =>
    rw [hY, Option.some_bind] at h
    obtain ⟨mr, hmr, h⟩ := List.exists_of_findSome?_eq_some h
    obtain ⟨dr, hdr, h⟩ := List.exists_of_findSome?_eq_some h
    obtain ⟨hr, hhr, h⟩ := List.exists_of_findSome?_eq_some h
    obtain ⟨nr, hnr, h⟩ := List.exists_of_findSome?_eq_some h
    obtain ⟨sr, hsr, h⟩ := List.exists_of_findSome?_eq_some h
    have hrest : sr.2 = rest := congrArg Prod.snd (Option.some_inj.mp h)
    obtain ⟨pY, hY1, hY2, hY3⟩ := matchY_consume cs yr.1 yr.2 (by rw [hY])
    obtain ⟨pM, hM1, hM2, hM3, hM4⟩ := candsM_consume _ _ hmr
    obtain ⟨pD, hD1, hD2, hD3, hD4⟩ := candsD_consume _ _ hdr
    obtain ⟨pH, hH1, hH2, hH3, hH4⟩ := candsH_consume _ _ hhr
    obtain ⟨pN, hN1, hN2, hN3, hN4⟩ := candsS_consume _ _ hnr
    obtain ⟨pS, hS1, hS2, hS3, hS4⟩ := candsS_consume _ _ hsr
    refine ⟨pY ++ pM ++ pD ++ pH ++ pN ++ pS, ?_, ?_, ?_, ?_⟩
    · rw [hY1, hM1, hD1, hH1, hN1, hS1, hrest]
      simp [List.append_assoc]
    · simp only [List.length_append]
      omega
    · simp only [List.length_append]
      omega
    · intro c' hc'
      simp only [List.mem_append] at hc'
      rcases hc' with ((((hc' | hc') | hc') | hc') | hc') | hc'
      · exact hY3 c' hc'
      · exact hM4 c' hc'
      · exact hD4 c' hc'
      · exact hH4 c' hc'
      · exact hN4 c' hc'
      · exact hS4 c' hc'

/-- Tokens with a non-digit character, or shorter than 9 or longer than 14
characters, coerce to null. -/
theorem argoParseDate_malformed (s : String)
    (h : (∃ c ∈ s.toList, ¬ c.isDigit = true)
      ∨ s.toList.length < 9 ∨ 14 < s.toList.length) :
    argoParseDate s = none := by
  unfold argoParseDate
  cases hm : argoMatch s.toList with
  | none => rfl
  | some tr =>
    obtain ⟨t, rest⟩ := tr
    cases rest with
    | nil =>
      obtain ⟨pre, hpre, h9, h14, hdig⟩ := argoMatch_consume _ _ _ hm
      rw [List.append_nil] at hpre
      subst hpre
      rcases h with ⟨c, hc, hnd⟩ | h | h
      · exact absurd (hdig c hc) hnd
      · omega
      · omega
    | cons c cs => rfl

/-- Counterexample to C6 as stated: 16000101000000 is the well-formed
YYYYMMDDHHMMSS rendering of the calendar timestamp 1600-01-01 00:00:00, yet
pd.to_datetime(..., errors=coerce) yields null for it, because the instant
precedes the smallest pandas nanosecond Timestamp (1677-09-21): a well-formed
token need not parse to the matching calendar timestamp. -/
theorem argo_out_of_range_counterexample :
    renderDT ⟨1600, 1, 1, 0, 0, 0⟩ = "16000101000000"
    ∧ validCalendar ⟨1600, 1, 1, 0, 0, 0⟩
    ∧ argoParseDate "16000101000000" = none :=
  ⟨by decide, by decide, by decide⟩

/-- Claim C6 (amended): a zero-padded YYYYMMDDHHMMSS token that names a valid
calendar timestamp within the pandas nanosecond-Timestamp range parses to
exactly that timestamp; a token with a non-digit character, or one shorter
than 9 or longer than 14 characters, yields a null timestamp rather than an
error (the coercion is total); a row whose latitude and longitude coerce to
numbers is retained regardless of its timestamp's nullness; and every
surviving Argo row carries a null temperature field. -/
theorem argo_date_semantics (t : DT) (s : String) (rows : List ArgoRaw) (raw : ArgoRaw) :
    (validCalendar t → inPandasBounds t → argoParseDate (renderDT t) = some t)
    ∧ ((∃ c ∈ s.toList, ¬ c.isDigit = true)
        ∨ s.toList.length < 9 ∨ 14 < s.toList.length → argoParseDate s = none)
    ∧ (raw ∈ rows → (toNumeric raw.lat).isSome = true →
        (toNumeric raw.lon).isSome = true →
        mkArgoRec raw ∈ argoTransform rows
        ∧ (mkArgoRec raw).timestamp = argoParseDate raw.date)
    ∧ (∀ rec ∈ argoTransform rows, rec.temperature = none) := by
  refine ⟨argo_wellformed_parses t, argoParseDate_malformed s, ?_, ?_⟩
  · intro hraw h1 h2
    refine ⟨List.mem_filter.mpr ⟨List.mem_map_of_mem _ hraw, ?_⟩, rfl⟩
    show ((mkArgoRec raw).latitude.isSome && (mkArgoRec raw).longitude.isSome) = true
    rw [Bool.and_eq_true]
    exact ⟨h1, h2⟩
  · intro rec hrec
    obtain ⟨raw', -, rfl⟩ := List.mem_map.mp (List.mem_filter.mp hrec).1
    rfl

/-- A modern in-range timestamp. -/
def argoSampleDT : DT := ⟨2023, 5, 17, 12, 30, 45⟩

/-- Witness for the amended C6: 20230517123045 parses to 2023-05-17
12:30:45. -/
theorem argo_date_semantics_witness :
    validCalendar argoSampleDT ∧ inPandasBounds argoSampleDT
    ∧ argoParseDate (renderDT argoSampleDT) = some argoSampleDT :=
  ⟨by decide, by decide,
   (argo_date_semantics argoSampleDT "" [] ⟨"", "", "", "", "", "", "", ""⟩).1
     (by decide) (by decide)⟩

end OceanSync
